import Mathlib

/-!
# Verification of the multibox-planner recommendation engine

Shallow embedding of `src/app/recommender.py` and `src/app/templates.py`.

Modelling conventions:
* Python strings are `String`; Python lists are `List`; Python dicts are
  association lists (`List (key × value)`, first match wins, mirroring the
  unique-key property of dicts); Python sets of strings are `List String`
  queried only through membership/emptiness/cardinality, which is faithful
  because every such list below is duplicate-free.
* Python floats are modelled as exact fixed-point integers scaled by 100:
  every float constant in the source has at most two decimals, so under
  exact (real) arithmetic every intermediate float value is a multiple of
  1/100.  A source value `x` is represented by the integer `100 * x`.
  Python `int(x)` truncates toward zero, which on a scaled value is
  `Int.tdiv _ 100`.
* Python `list.sort` / `sorted` are stable; a stable sort's output is
  uniquely determined by the ordering key and the input order, so they are
  modelled by `List.insertionSort` (stable) with the corresponding ordering.
* String comparison (`sorted` over class names) is Unicode-code-point
  lexicographic in Python; `strLe` below implements exactly that order.
-/

namespace MultiboxPlanner

/-- Code-point lexicographic comparison of character lists (Python string `<=`). -/
def lexLe : List Char → List Char → Bool
  | [], _ => true
  | _ :: _, [] => false
  | a :: as, b :: bs =>
    if a.toNat < b.toNat then true
    else if b.toNat < a.toNat then false
    else lexLe as bs

/-- Python string `<=` (code-point lexicographic). -/
def strLe (a b : String) : Bool := lexLe a.data b.data

/-- Stable ascending sort of strings: the result of Python `sorted` on strings. -/
def sortStrings (l : List String) : List String :=
  List.insertionSort (fun a b => strLe a b = true) l

/-- Stable descending-by-first-component sort: the result of Python
`list.sort(reverse=True, key=lambda x: x[0])` on scored pairs. -/
def sortScoredDesc (l : List (Int × String)) : List (Int × String) :=
  List.insertionSort (fun a b => b.1 ≤ a.1) l

-- Fixed class-capability sets from the top of recommender.py.

def CATEGORIES : List String :=
  ["dps", "healing", "tanking", "pet_tanking", "solo", "sustain", "kite", "charm"]

def PORTERS : List String := ["Wizard", "Druid"]

def RUN_SPEED : List String := ["Bard", "Druid", "Shaman", "Ranger"]

def CHARMERS : List String := ["Enchanter"]

def PET_DPS : List String := ["Magician", "Necromancer", "Beastlord"]

def KITERS : List String := ["Necromancer", "Druid", "Wizard", "Bard", "Ranger"]

def SLOWERS : List String := ["Shaman", "Enchanter"]

def CCERS : List String := ["Enchanter", "Bard"]

def SNARERS : List String := ["Wizard", "Druid", "Ranger"]

def MELEE_DPS : List String := ["Monk", "Rogue", "Ranger", "Berserker"]

def CASTER_DPS : List String := ["Wizard", "Magician", "Necromancer", "Enchanter", "Druid"]

def TANKS : List String := ["Warrior", "Shadowknight", "Paladin"]

def HEALERS : List String := ["Cleric", "Druid", "Shaman"]

def PET_TANKERS : List String := ["Magician", "Necromancer", "Beastlord"]

/-- `ratings`: era -> class -> category -> integer score (the loaded CSV table). -/
abbrev Ratings := List (String × List (String × List (String × Int)))

/-- A ruleset: label plus per-era class additions and removals
(`weight_modifiers` is part of the schema but unused by the engine). -/
structure Ruleset where
  label : String
  add_classes_by_era : List (String × List String)
  remove_classes_by_era : List (String × List String)

-- templates.py

def TEMPLATES : List (Nat × List String) :=
  [(2, ["tank", "healer"]),
   (3, ["tank", "healer", "dps"]),
   (4, ["tank", "healer", "slow", "dps"]),
   (5, ["tank", "healer", "slow", "dps", "dps"]),
   (6, ["tank", "healer", "slow", "cc", "dps", "dps"])]

def LEVELING_6BOX_TEMPLATE : List String :=
  ["tank", "healer", "cc", "dps", "dps", "dps"]

def HARDCORE_TEMPLATES : List (Nat × List String) :=
  [(4, ["tank", "healer", "slow", "cc"]),
   (5, ["tank", "healer", "slow", "cc", "dps"]),
   (6, ["tank", "healer", "slow", "cc", "dps", "dps"])]

/-- `get_template` from templates.py.  (A `box_size` outside 2..6 raises a
`KeyError` in Python; it is modelled as the empty template, which no caller
and no claim exercises.) -/
def get_template (box_size : Nat) (focus : String) : List String :=
  if focus = "solo_raid" ∧ box_size ≥ 4 ∧ (HARDCORE_TEMPLATES.lookup box_size).isSome then
    (HARDCORE_TEMPLATES.lookup box_size).getD []
  else if box_size ≠ 6 then (TEMPLATES.lookup box_size).getD []
  else if focus = "leveling" then LEVELING_6BOX_TEMPLATE
  else (TEMPLATES.lookup 6).getD []

-- Availability + filtering

/-- `get_available_classes(ratings, era, ruleset)`:
`sorted((classes rated in era | additions for era) - removals for era)`. -/
def get_available_classes (ratings : Ratings) (era : String) (ruleset : Ruleset) :
    List String :=
  let base := ((ratings.lookup era).getD []).map Prod.fst
  let additions := (ruleset.add_classes_by_era.lookup era).getD []
  let removals := (ruleset.remove_classes_by_era.lookup era).getD []
  sortStrings (((base ++ additions).dedup).filter (fun c => ¬ removals.contains c))

/-- `comp_matches_filters`: no excluded class, and every must-include class present. -/
def comp_matches_filters (comp : List String) (must_include exclude : List String) : Bool :=
  if comp.any (fun c => exclude.contains c) then false
  else if ¬ must_include.all (fun c => comp.contains c) then false
  else true

/-- `comp_matches_constraints`: pass/fail membership checks for each required flag. -/
def comp_matches_constraints (comp : List String)
    (require_ports require_run_speed require_charm require_pet_heavy require_kiting : Bool) :
    Bool :=
  if require_ports ∧ ¬ comp.any (fun c => PORTERS.contains c) then false
  else if require_run_speed ∧ ¬ comp.any (fun c => RUN_SPEED.contains c) then false
  else if require_charm ∧ ¬ comp.contains "Enchanter" then false
  else if require_pet_heavy ∧ ¬ comp.any (fun c => PET_DPS.contains c) then false
  else if require_kiting ∧ ¬ comp.any (fun c => KITERS.contains c) then false
  else true

-- Scoring helpers

/-- `get_score`: rating lookup defaulting to 0 for unknown era/class/category. -/
def get_score (ratings : Ratings) (era cls cat : String) : Int :=
  (((((ratings.lookup era).getD []).lookup cls).getD []).lookup cat).getD 0

/-- `melee_penalty`: manual-boxing melee penalty of 15, waived for Ranger in luclin/pop. -/
def melee_penalty (boxing_mode cls era : String) : Int :=
  if boxing_mode ≠ "manual" then 0
  else if ¬ MELEE_DPS.contains cls then 0
  else if cls = "Ranger" ∧ (era = "luclin" ∨ era = "pop") then 0
  else 15

/-- `start_condition_bonus`: +10 pet classes / +6 Monk on a fresh start, else 0. -/
def start_condition_bonus (start cls : String) : Int :=
  if start ≠ "fresh" then 0
  else if PET_DPS.contains cls then 10
  else if cls = "Monk" then 6
  else 0

/-- `synergy_bonus`: whole-comp synergy bonuses. -/
def synergy_bonus (comp : List String) : Int :=
  let b1 : Int := if comp.contains "Shadowknight" ∧ comp.contains "Shaman" then 18 else 0
  let melee_count := (comp.filter (fun c => MELEE_DPS.contains c)).length
  let caster_count := (comp.filter (fun c => CASTER_DPS.contains c)).length
  let b2 : Int := if comp.contains "Bard" ∧ melee_count ≥ 2 then 10 else 0
  let b3 : Int := if comp.contains "Enchanter" ∧ caster_count ≥ 2 then 8 else 0
  let b4 : Int :=
    if comp.length = 6
        ∧ (comp.contains "Warrior" ∨ comp.contains "Shadowknight")
        ∧ comp.contains "Shaman" ∧ comp.contains "Bard" ∧ comp.contains "Cleric"
        ∧ (comp.filter (fun c => MELEE_DPS.contains c)).length ≥ 2 then 28 else 0
  b1 + b2 + b3 + b4

/-- `_charm_synergy_bonus`: per-class caster/pet bonuses when an Enchanter is present. -/
def charm_synergy_bonus (comp : List String) : Int :=
  if ¬ comp.contains "Enchanter" then 0
  else (comp.map (fun c =>
    if c = "Enchanter" then (0 : Int)
    else if c = "Magician" ∨ c = "Necromancer" then 14
    else if c = "Beastlord" then 6
    else if c = "Wizard" ∨ c = "Druid" then 8
    else 0)).sum

/-- `_manual_partner_allowed`: tanks and melee DPS are excluded from manual partner pools. -/
def manual_partner_allowed (cls : String) : Bool :=
  if TANKS.contains cls then false
  else if MELEE_DPS.contains cls then false
  else true

-- Role pools

/-- Score every class of `pool` with `key`, sort descending (stably), keep the
first `n` class names: the `scored.sort(reverse=True); return scored[:n]`
pattern used by every ranked branch of `role_candidates`. -/
def rank_top (pool : List String) (key : String → Int) (n : Nat) : List String :=
  ((sortScoredDesc (pool.map (fun c => (key c, c)))).take n).map Prod.snd

/-- The `top_by(cat, n)` helper inside `role_candidates`: start-condition bonus
always added; for the `dps` category also the manual melee penalty and the
+30 Enchanter bump when charm is required. -/
def top_by (avail : List String) (ratings : Ratings) (era boxing_mode start : String)
    (require_charm : Bool) (cat : String) (n : Nat) : List String :=
  rank_top avail
    (fun c =>
      let base := get_score ratings era c cat + start_condition_bonus start c
      if cat = "dps" then
        let base := base - melee_penalty boxing_mode c era
        if require_charm ∧ c = "Enchanter" then base + 30 else base
      else base)
    n

/-- The branch dispatch of `role_candidates` (split out so each branch can be
reasoned about by peeling one `role = ...` test at a time).  All fractional
blends go through `int(...)` in the source, so every candidate key is an
exact integer (`Int.tdiv _ 100` of the 100-scaled blend). -/
def role_candidates_body (avail : List String) (ratings : Ratings) (era role : String)
    (boxing_mode start : String) (require_charm : Bool) : List String :=
  if role = "tank" then
    rank_top (avail.filter (fun c => TANKS.contains c))
      (fun c => get_score ratings era c "tanking") 6
  else if role = "healer" then
    rank_top (avail.filter (fun c => HEALERS.contains c))
      (fun c => get_score ratings era c "healing") 6
  else if role = "slow" then
    let pool := avail.filter (fun c => SLOWERS.contains c)
    if ¬ pool.isEmpty then pool else top_by avail ratings era boxing_mode start require_charm "solo" 5
  else if role = "cc" then
    let pool := avail.filter (fun c => CCERS.contains c)
    if ¬ pool.isEmpty then pool else top_by avail ratings era boxing_mode start require_charm "solo" 5
  else if role = "pet_tank" then
    rank_top (avail.filter (fun c => PET_TANKERS.contains c))
      (fun c => get_score ratings era c "pet_tanking") 6
  else if role = "charm_tank" then
    if ¬ avail.contains "Enchanter" then [] else ["Enchanter"]
  else if role = "charm_partner" then
    let use := avail.filter (fun c => ¬ c = "Enchanter")
    let use := if boxing_mode = "manual" then use.filter (fun c => manual_partner_allowed c) else use
    rank_top use
      (fun c =>
        let dps := get_score ratings era c "dps" - melee_penalty boxing_mode c era
        let healing := get_score ratings era c "healing"
        let base := Int.tdiv (dps * 85 + healing * 15) 100
        let base := if SNARERS.contains c then base + 15 else base
        let base := if RUN_SPEED.contains c then base + 6 else base
        let base := if PORTERS.contains c then base + 5 else base
        base + Int.tdiv (start_condition_bonus start c * 50) 100)
      10
  else if role = "pet_partner" then
    let use := if boxing_mode = "manual" then avail.filter (fun c => manual_partner_allowed c) else avail
    rank_top use
      (fun c =>
        let dps := get_score ratings era c "dps" - melee_penalty boxing_mode c era
        let healing := get_score ratings era c "healing"
        let base := Int.tdiv (dps * 85 + healing * 15) 100
        let base := if SLOWERS.contains c then base + 12 else base
        let base := if PORTERS.contains c then base + 5 else base
        let base := if RUN_SPEED.contains c then base + 6 else base
        let base := if CCERS.contains c then base + 5 else base
        let base := if PET_DPS.contains c then base + 8 else base
        base + Int.tdiv (start_condition_bonus start c * 50) 100)
      10
  else if role = "kiter" then
    rank_top (avail.filter (fun c => KITERS.contains c))
      (fun c => get_score ratings era c "kite") 8
  else if role = "kiter_swarm" then
    if ¬ avail.contains "Bard" then [] else ["Bard"]
  else if role = "kiter_fear_snare" then
    rank_top (avail.filter (fun c =>
        c = "Necromancer" ∨ c = "Druid" ∨ c = "Wizard" ∨ c = "Ranger"))
      (fun c => get_score ratings era c "kite") 6
  else if role = "kite_partner_swarm" then
    let use := if boxing_mode = "manual" then avail.filter (fun c => manual_partner_allowed c) else avail
    rank_top use
      (fun c =>
        let dps := get_score ratings era c "dps" - melee_penalty boxing_mode c era
        let healing := get_score ratings era c "healing"
        let base := Int.tdiv (healing * 60 + dps * 40) 100
        let base := if RUN_SPEED.contains c then base + 10 else base
        let base := if SLOWERS.contains c then base + 6 else base
        let base := if PORTERS.contains c then base + 4 else base
        base + Int.tdiv (start_condition_bonus start c * 40) 100)
      10
  else if role = "kite_partner_fear_snare" then
    let use := if boxing_mode = "manual" then avail.filter (fun c => manual_partner_allowed c) else avail
    rank_top use
      (fun c =>
        let dps := get_score ratings era c "dps" - melee_penalty boxing_mode c era
        let healing := get_score ratings era c "healing"
        let base := Int.tdiv (dps * 85 + healing * 15) 100
        let base := if RUN_SPEED.contains c then base + 8 else base
        let base := if PORTERS.contains c then base + 6 else base
        let base := if PET_DPS.contains c then base + 8 else base
        let base := if SLOWERS.contains c then base + 6 else base
        base + Int.tdiv (start_condition_bonus start c * 40) 100)
      10
  else if role = "support" then
    rank_top avail
      (fun c =>
        let healing := get_score ratings era c "healing"
        let sustain := get_score ratings era c "sustain"
        let solo := get_score ratings era c "solo"
        let kite := get_score ratings era c "kite"
        let charm := get_score ratings era c "charm"
        let base := Int.tdiv (healing * 65 + sustain * 45 + solo * 35 + kite * 20 + charm * 15) 100
        let base := if SLOWERS.contains c then base + 14 else base
        let base := if CCERS.contains c then base + 8 else base
        let base := if PORTERS.contains c then base + 6 else base
        let base := if RUN_SPEED.contains c then base + 6 else base
        let base := base + Int.tdiv (start_condition_bonus start c * 50) 100
        let base := if require_charm ∧ c = "Enchanter" then base + 18 else base
        if boxing_mode = "manual" ∧ MELEE_DPS.contains c then base - 6 else base)
      10
  else if role = "dps" then
    top_by avail ratings era boxing_mode start require_charm "dps" 10
  else
    top_by avail ratings era boxing_mode start require_charm "solo" 6

/-- `role_candidates`: the ranked candidate pool for one semantic slot name
(`avail = list(available)` is an identity copy). -/
def role_candidates (available : List String) (ratings : Ratings) (era role : String)
    (boxing_mode start : String) (require_charm : Bool) : List String :=
  role_candidates_body available ratings era role boxing_mode start require_charm

-- Must-include slot choice

/-- `_best_slot_index_for_must_include`: first template index of the first
preferred slot type for this class archetype, skipping excluded indices;
falls back to the first non-excluded index, then to 0. -/
def best_slot_index_for_must_include (cls : String) (template_slots : List String)
    (exclude_indices : List Nat) : Nat :=
  let slot_types_for_class : List String :=
    if TANKS.contains cls then ["tank"]
    else if HEALERS.contains cls then ["healer"]
    else if PET_TANKERS.contains cls then ["pet_tank", "pet_partner", "dps"]
    else if SLOWERS.contains cls then ["slow", "cc", "dps"]
    else if CCERS.contains cls then ["cc", "dps"]
    else if CHARMERS.contains cls then ["charm_tank", "cc", "dps"]
    else if KITERS.contains cls then
      ["kiter_swarm", "kiter_fear_snare", "kiter", "kite_partner_swarm",
       "kite_partner_fear_snare", "dps"]
    else
      ["dps", "tank", "pet_partner", "charm_partner", "kite_partner_swarm",
       "kite_partner_fear_snare", "kite_partner", "support", "slow", "cc", "healer"]
  match slot_types_for_class.findSome? (fun slot_type =>
      (template_slots.enum.find? (fun p =>
        p.2 == slot_type && !(exclude_indices.contains p.1))).map Prod.fst) with
  | some i => i
  | none =>
    match (List.range template_slots.length).find? (fun i => !(exclude_indices.contains i)) with
    | some i => i
    | none => 0

-- Slot forcing

/-- `_flex_slot_indices`: slot indices eligible for constraint forcing.
Hardcore: only `dps` slots.  The 3-box charm template: `[2, 1]`.  Otherwise a
preference order over slot names, never `tank` or `charm_tank`. -/
def flex_slot_indices (template_slots : List String) (hardcore_required : Bool) : List Nat :=
  if hardcore_required then
    (template_slots.enum.filter (fun p => p.2 == "dps")).map Prod.fst
  else if template_slots = ["charm_tank", "healer", "dps"] then [2, 1]
  else
    let order := ["healer", "slow", "cc", "dps", "pet_partner", "charm_partner",
      "kite_partner_swarm", "kite_partner_fear_snare", "kite_partner", "support"]
    let non_flex := ["tank", "charm_tank"]
    (order.flatMap (fun slot_name =>
      (template_slots.enum.filter (fun p => p.2 == slot_name)).map Prod.fst))
    ++ (template_slots.enum.filter (fun p =>
          !(order.contains p.2) && !(non_flex.contains p.2))).map Prod.fst

/-- `_build_requirement_sets`: one qualifying-class set per active, unsatisfied
constraint (charm / pet-heavy / kiting; ports and run speed are deliberately
never forced), intersected with the available set; empty sets dropped. -/
def build_requirement_sets (available_set : List String)
    (require_charm require_pet_heavy require_kiting : Bool)
    (already_satisfied : List String) : List (List String) :=
  let reqs : List (List String) :=
    (if require_charm ∧ ¬ CHARMERS.any (fun c => already_satisfied.contains c) then
      [CHARMERS.filter (fun c => available_set.contains c)] else [])
    ++ (if require_pet_heavy ∧ ¬ PET_DPS.any (fun c => already_satisfied.contains c) then
      [PET_DPS.filter (fun c => available_set.contains c)] else [])
    ++ (if require_kiting ∧ ¬ KITERS.any (fun c => already_satisfied.contains c) then
      [KITERS.filter (fun c => available_set.contains c)] else [])
  reqs.filter (fun r => ¬ r.isEmpty)

/-- `itertools.combinations(l, k)` in its generation order. -/
def combos {α : Type} : Nat → List α → List (List α)
  | 0, _ => [[]]
  | _ + 1, [] => []
  | k + 1, x :: xs => (combos k xs).map (fun c => x :: c) ++ combos (k + 1) xs

/-- Intersection of the requirement sets selected by `idxs` (Python
`reduce(&, reqs[i] for i in idxs)` done left to right). -/
def inter_all (reqs : List (List String)) : List Nat → List String
  | [] => []
  | i :: rest => rest.foldl
      (fun acc j => acc.filter (fun c => (reqs.getD j []).contains c))
      (reqs.getD i [])

/-- One pass of `_best_intersection_group`'s inner loop over the size-`k`
combinations: keep the largest group, and among same-size groups the first
one with the strictly smallest nonempty intersection. -/
def best_group_pass (reqs : List (List String)) (cands : List (List Nat))
    (best : List String × List Nat) : List String × List Nat :=
  cands.foldl (fun best idxs =>
    let inter := inter_all reqs idxs
    if inter.isEmpty then best
    else if idxs.length > best.2.length then (inter, idxs)
    else if idxs.length = best.2.length ∧ ¬ best.2.isEmpty ∧ inter.length < best.1.length then
      (inter, idxs)
    else best) best

/-- `_best_intersection_group`: try size 3, then 2, then 1 combinations,
returning as soon as a size class yields a nonempty intersection. -/
def best_intersection_group (reqs : List (List String)) : List String × List Nat :=
  let n := reqs.length
  let b3 := best_group_pass reqs (combos 3 (List.range n)) ([], [])
  if ¬ b3.2.isEmpty then b3
  else
    let b2 := best_group_pass reqs (combos 2 (List.range n)) b3
    if ¬ b2.2.isEmpty then b2
    else best_group_pass reqs (combos 1 (List.range n)) b2

/-- Remove the requirement sets at positions `idxs`
(Python `for i in sorted(idxs, reverse=True): del reqs[i]`). -/
def remove_at_indices (reqs : List (List String)) (idxs : List Nat) : List (List String) :=
  (reqs.enum.filter (fun p => !(idxs.contains p.1))).map Prod.snd

/-- The `while reqs and slot_cursor < len(slot_order)` loop of
`force_constraints_into_slots`. -/
def force_loop (reqs : List (List String)) : List Nat → List (Nat × List String)
  | [] => []
  | slot_idx :: rest =>
    if reqs.isEmpty then []
    else
      let pi := best_intersection_group reqs
      if pi.2.isEmpty ∨ pi.1.isEmpty then []
      else (slot_idx, pi.1) :: force_loop (remove_at_indices reqs pi.2) rest

/-- `force_constraints_into_slots`: slot-index -> forced-class-subset map. -/
def force_constraints_into_slots (template_slots available : List String)
    (require_ports require_run_speed require_charm require_pet_heavy require_kiting : Bool)
    (already_satisfied : List String) (hardcore_required : Bool) :
    List (Nat × List String) :=
  let _ports := require_ports
  let _run_speed := require_run_speed
  let reqs := build_requirement_sets available
    require_charm require_pet_heavy require_kiting already_satisfied
  if reqs.isEmpty then []
  else
    let slot_order := flex_slot_indices template_slots hardcore_required
    if slot_order.isEmpty then []
    else force_loop reqs slot_order

-- Slot-aware scoring

/-- `_slot_value`: the 100-scaled value of `cls` occupying `slot`, plus the
category breakdown (also 100-scaled).  The secondary-healer override is taken
when the slot is not the healer slot, the class is a healer class and a
different class occupies the comp's healer slot. -/
def slot_value (ratings : Ratings) (era cls slot boxing_mode : String)
    (comp : List String) (template_slots : List String) : Int × List (String × Int) :=
  let slot := if slot = "kiter_swarm" ∨ slot = "kiter_fear_snare" then "kiter" else slot
  let slot := if slot = "kite_partner_swarm" ∨ slot = "kite_partner_fear_snare" then
    "kite_partner" else slot
  let dps := get_score ratings era cls "dps" - melee_penalty boxing_mode cls era
  let healing := get_score ratings era cls "healing"
  let tanking := get_score ratings era cls "tanking"
  let pet_tanking := get_score ratings era cls "pet_tanking"
  let sustain := get_score ratings era cls "sustain"
  let kite := get_score ratings era cls "kite"
  let charm := get_score ratings era cls "charm"
  let main_healer := (template_slots.enum.find? (fun p => p.2 == "healer")).bind
    (fun p => comp.getD p.1 "" |> some)
  if slot ≠ "healer" ∧ HEALERS.contains cls
      ∧ main_healer.isSome ∧ main_healer ≠ some cls then
    (dps * 100 + healing * 15,
     [("dps", dps * 100), ("healing", healing * 100), ("healing_secondary_bonus", healing * 15)])
  else if slot = "tank" then
    (tanking * 45 + sustain * 30 + dps * 25,
     [("tanking", tanking * 100), ("sustain", sustain * 100), ("dps", dps * 100)])
  else if slot = "pet_tank" then
    (pet_tanking * 100 + sustain * 15,
     [("pet_tanking", pet_tanking * 100), ("sustain", sustain * 100)])
  else if slot = "kiter" then
    (kite * 100 + sustain * 25, [("kite", kite * 100), ("sustain", sustain * 100)])
  else if slot = "charm_tank" then
    (charm * 100 + sustain * 20, [("charm", charm * 100), ("sustain", sustain * 100)])
  else if slot = "healer" then
    (healing * 100, [("healing", healing * 100)])
  else if slot = "kite_partner" ∨ slot = "pet_partner" ∨ slot = "charm_partner" then
    (healing * 50 + dps * 50, [("healing", healing * 100), ("dps", dps * 100)])
  else if slot = "slow" ∨ slot = "cc" ∨ slot = "support" then
    (healing * 35 + dps * 35 + charm * 20 + sustain * 15,
     [("healing", healing * 100), ("dps", dps * 100), ("charm", charm * 100),
      ("sustain", sustain * 100)])
  else
    (dps * 100, [("dps", dps * 100)])

/-- One entry of the explanation's `slot_breakdowns` list (values 100-scaled). -/
structure SlotBreakdown where
  slot : String
  cls : String
  value : Int
  breakdown : List (String × Int)
  start_bonus : Int
  deriving DecidableEq

/-- Accumulator of the per-slot loop in `score_comp_explain`. -/
structure ScoreAcc where
  bds : List SlotBreakdown
  slot_total : Int
  start_bonus_total : Int
  charm_bonus_applied : Int
  hardcore_warrior_bonus : Int

/-- One iteration of the `for slot, cls in zip(template_slots, comp)` loop. -/
def score_step (ratings : Ratings) (era boxing_mode start : String) (require_charm : Bool)
    (hardcore_required : Bool) (comp template_slots : List String)
    (acc : ScoreAcc) (p : String × String) : ScoreAcc :=
  let slot := p.1
  let cls := p.2
  let bv := slot_value ratings era cls slot boxing_mode comp template_slots
  let base_val := if require_charm ∧ cls = "Enchanter" then bv.1 + 3000 else bv.1
  let cba := if require_charm ∧ cls = "Enchanter" then 30 else acc.charm_bonus_applied
  let hwb := if hardcore_required ∧ slot = "tank" ∧ cls = "Warrior" then 18
    else acc.hardcore_warrior_bonus
  let sb := start_condition_bonus start cls
  { bds := acc.bds ++ [⟨slot, cls, base_val, bv.2, sb⟩]
    slot_total := acc.slot_total + base_val
    start_bonus_total := acc.start_bonus_total + sb
    charm_bonus_applied := cba
    hardcore_warrior_bonus := hwb }

/-- The explanation structure returned by `score_comp_explain` (numeric fields
only; the human-readable `summary_lines` strings are display-only and omitted). -/
structure ScoreDetail where
  charm_bonus_applied : Int
  charm_synergy : Int
  template_slots : List String
  slot_breakdowns : List SlotBreakdown
  slow_applied : Bool
  slow_has_slow : Bool
  slow_bonus_or_penalty : Int
  synergy_bonus : Int
  start_bonus_total : Int
  tank_count : Nat
  tank_stack_penalty : Int
  charm_snare_bonus : Int
  classic_double_melee_bonus : Int
  hardcore_warrior_bonus : Int
  constraint_already_met_bonus : Int
  total : Int
  deriving DecidableEq

/-- The run-speed / ports constraint-already-met bonus of `score_comp_explain`. -/
def constraint_met_bonus (comp : List String) (require_run_speed require_ports : Bool) : Int :=
  (if require_run_speed ∧ (comp.contains "Bard" ∨ comp.contains "Shaman") then 28 else 0)
  + (if require_ports ∧ comp.any (fun c => PORTERS.contains c) then 15 else 0)

/-- The 6-box assisted/macro non-fresh classic double-melee bonus of `score_comp_explain`. -/
def classic_double_melee_value (comp : List String) (boxing_mode start : String) : Int :=
  if comp.length = 6 ∧ (boxing_mode = "assisted" ∨ boxing_mode = "macroquest")
      ∧ start ≠ "fresh"
      ∧ (comp.contains "Warrior" ∨ comp.contains "Shadowknight")
      ∧ comp.contains "Shaman" ∧ comp.contains "Bard" ∧ comp.contains "Cleric"
      ∧ (comp.filter (fun c => MELEE_DPS.contains c)).length ≥ 2
      ∧ ¬ comp.contains "Enchanter" then 22 else 0

/-- The 2/3-box charm + snare safety bonus of `score_comp_explain`. -/
def charm_snare_value (comp : List String) (require_charm : Bool) : Int :=
  if (comp.length = 2 ∨ comp.length = 3) ∧ (comp.contains "Enchanter" ∨ require_charm)
      ∧ comp.any (fun c => SNARERS.contains c) then 18 else 0

/-- The traditional 2-box slow bonus/penalty of `score_comp_explain`. -/
def slow_adjust_value (comp template_slots : List String) : Int :=
  if comp.length = 2 ∧ template_slots = ["tank", "healer"] then
    (if comp.any (fun c => SLOWERS.contains c) then 20 else -25)
  else 0

/-- The tank-stacking penalty of `score_comp_explain`. -/
def tank_stack_value (comp : List String) : Int :=
  let tank_count := (comp.filter (fun c => TANKS.contains c)).length
  if tank_count ≥ 2 then -40 * ((tank_count : Int) - 1) else 0

/-- `score_comp_explain`: integer total (Python `int()` of the float sum, i.e.
truncation toward zero of the 100-scaled sum) plus the explanation. -/
def score_comp_explain (comp : List String) (ratings : Ratings)
    (era boxing_mode start : String) (require_charm : Bool) (template_slots : List String)
    (hardcore_required require_run_speed require_ports : Bool) : Int × ScoreDetail :=
  let tank_count := (comp.filter (fun c => TANKS.contains c)).length
  let acc := (template_slots.zip comp).foldl
    (score_step ratings era boxing_mode start require_charm hardcore_required comp template_slots)
    ⟨[], 0, 0, 0, 0⟩
  let syn_bonus := synergy_bonus comp
  let charm_synergy := charm_synergy_bonus comp
  let constraint_already_met_bonus := constraint_met_bonus comp require_run_speed require_ports
  let classic_double_melee_bonus := classic_double_melee_value comp boxing_mode start
  let charm_snare_bonus := charm_snare_value comp require_charm
  let has_slow := comp.any (fun c => SLOWERS.contains c)
  let slow_applied := comp.length = 2 ∧ template_slots = ["tank", "healer"]
  let slow_bonus_or_penalty := slow_adjust_value comp template_slots
  let tank_stack_penalty := tank_stack_value comp
  let total := Int.tdiv
    (acc.slot_total
      + 100 * (syn_bonus + charm_synergy + classic_double_melee_bonus
        + acc.hardcore_warrior_bonus + constraint_already_met_bonus
        + slow_bonus_or_penalty + tank_stack_penalty + charm_snare_bonus)
      + 40 * acc.start_bonus_total) 100
  (total,
   { charm_bonus_applied := acc.charm_bonus_applied
     charm_synergy := charm_synergy
     template_slots := template_slots
     slot_breakdowns := acc.bds
     slow_applied := decide slow_applied
     slow_has_slow := has_slow
     slow_bonus_or_penalty := slow_bonus_or_penalty
     synergy_bonus := syn_bonus
     start_bonus_total := acc.start_bonus_total
     tank_count := tank_count
     tank_stack_penalty := tank_stack_penalty
     charm_snare_bonus := charm_snare_bonus
     classic_double_melee_bonus := classic_double_melee_bonus
     hardcore_warrior_bonus := acc.hardcore_warrior_bonus
     constraint_already_met_bonus := constraint_already_met_bonus
     total := total })

-- Enumerator / ranker

/-- The hardcore hard-overrides of `generate_scored_recommendations`: the first
`healer` / `slow` / `cc` slot is pinned to Cleric / Shaman / Bard when that
class is available. -/
def hardcore_forced_slots (template_slots available_set : List String)
    (hardcore_required : Bool) : List (Nat × List String) :=
  if hardcore_required then
    (if available_set.contains "Cleric" then
      ((template_slots.findIdx? (fun s => s == "healer")).map
        (fun i => (i, ["Cleric"]))).toList else [])
    ++ (if available_set.contains "Shaman" then
      ((template_slots.findIdx? (fun s => s == "slow")).map
        (fun i => (i, ["Shaman"]))).toList else [])
    ++ (if available_set.contains "Bard" then
      ((template_slots.findIdx? (fun s => s == "cc")).map
        (fun i => (i, ["Bard"]))).toList else [])
  else []

/-- The `already_satisfied` set computed at the top of
`generate_scored_recommendations`. -/
def already_satisfied_classes (template_slots available_set : List String)
    (require_charm hardcore_required : Bool) : List String :=
  let sat := if hardcore_required then
    ["Cleric", "Shaman", "Bard"].filter (fun c => available_set.contains c) else []
  if template_slots.contains "charm_tank" ∧ require_charm then
    sat ++ CHARMERS.filter (fun c => available_set.contains c)
  else sat

/-- The per-slot candidate pools before must-include injection: hardcore
override first, then constraint forcing (`sorted(...)` of the forced set),
then the role pool. -/
def base_slot_pools (ratings : Ratings) (era : String) (available template_slots : List String)
    (boxing_mode start : String)
    (require_ports require_run_speed require_charm require_pet_heavy require_kiting : Bool)
    (hardcore_required : Bool) : List (List String) :=
  let already_satisfied := already_satisfied_classes template_slots available
    require_charm hardcore_required
  let forced_slots := force_constraints_into_slots template_slots available
    require_ports require_run_speed require_charm require_pet_heavy require_kiting
    already_satisfied hardcore_required
  let hardcore_forced := hardcore_forced_slots template_slots available hardcore_required
  template_slots.enum.map (fun p =>
    match hardcore_forced.lookup p.1 with
    | some pool => pool
    | none =>
      match forced_slots.lookup p.1 with
      | some pool => sortStrings pool
      | none => role_candidates available ratings era p.2 boxing_mode start require_charm)

/-- The must-include injection loop: a required class absent from every pool is
appended to its best-fitting pool (never a hardcore-locked slot). -/
def inject_must_include (pools : List (List String)) (must_include exclude : List String)
    (available template_slots : List String) (hardcore_slot_indices : List Nat) :
    List (List String) :=
  must_include.foldl (fun pools cls =>
    if ¬ available.contains cls ∨ exclude.contains cls then pools
    else if pools.any (fun pool => pool.contains cls) then pools
    else
      let idx := best_slot_index_for_must_include cls template_slots hardcore_slot_indices
      if idx < pools.length then
        let pool := pools.getD idx []
        let pool := if pool.contains cls then pool else pool ++ [cls]
        pools.set idx pool
      else pools) pools

/-- The final per-slot pools fed to the cartesian product. -/
def final_slot_pools (ratings : Ratings) (era : String)
    (available template_slots : List String) (boxing_mode start : String)
    (must_include exclude : List String)
    (require_ports require_run_speed require_charm require_pet_heavy require_kiting : Bool)
    (hardcore_required : Bool) : List (List String) :=
  let pools := base_slot_pools ratings era available template_slots boxing_mode start
    require_ports require_run_speed require_charm require_pet_heavy require_kiting
    hardcore_required
  let hardcore_forced := hardcore_forced_slots template_slots available hardcore_required
  inject_must_include pools must_include exclude available template_slots
    (hardcore_forced.map Prod.fst)

/-- `itertools.product(*slot_pools)` in its generation order. -/
def pools_product {α : Type} : List (List α) → List (List α)
  | [] => [[]]
  | pool :: rest => pool.flatMap (fun x => (pools_product rest).map (fun xs => x :: xs))

/-- The duplicate-class admission test of the enumeration loop: duplicates are
rejected outright unless the template has ≥ 2 `dps` slots, in which case a
duplicated Enchanter is rejected, and under manual boxing a duplicated melee
class is rejected unless it is Ranger in the luclin/pop eras. -/
def comp_dup_ok (comp : List String) (allow_duplicate_dps : Bool)
    (boxing_mode era : String) : Bool :=
  if comp.Nodup then true
  else if ¬ allow_duplicate_dps then false
  else if comp.count "Enchanter" > 1 then false
  else if boxing_mode = "manual" ∧ comp.any (fun cls =>
      comp.count cls > 1 ∧ MELEE_DPS.contains cls
        ∧ ¬ (cls = "Ranger" ∧ (era = "luclin" ∨ era = "pop"))) then false
  else true

/-- The `for picks in product(*slot_pools)` loop: duplicate-class check, seen-set
deduplication, hard filters, constraint filters, then scoring. -/
def process_comps (ratings : Ratings) (era boxing_mode start : String)
    (must_include exclude : List String)
    (require_ports require_run_speed require_charm require_pet_heavy require_kiting : Bool)
    (template_slots : List String) (hardcore_required allow_duplicate_dps : Bool) :
    List (List String) → List (List String) → List (Int × List String × ScoreDetail)
  | _, [] => []
  | seen, comp :: rest =>
    if ¬ comp_dup_ok comp allow_duplicate_dps boxing_mode era then
      process_comps ratings era boxing_mode start must_include exclude
        require_ports require_run_speed require_charm require_pet_heavy require_kiting
        template_slots hardcore_required allow_duplicate_dps seen rest
    else if seen.contains comp then
      process_comps ratings era boxing_mode start must_include exclude
        require_ports require_run_speed require_charm require_pet_heavy require_kiting
        template_slots hardcore_required allow_duplicate_dps seen rest
    else if ¬ comp_matches_filters comp must_include exclude then
      process_comps ratings era boxing_mode start must_include exclude
        require_ports require_run_speed require_charm require_pet_heavy require_kiting
        template_slots hardcore_required allow_duplicate_dps (comp :: seen) rest
    else if ¬ comp_matches_constraints comp
        require_ports require_run_speed require_charm require_pet_heavy require_kiting then
      process_comps ratings era boxing_mode start must_include exclude
        require_ports require_run_speed require_charm require_pet_heavy require_kiting
        template_slots hardcore_required allow_duplicate_dps (comp :: seen) rest
    else
      let sd := score_comp_explain comp ratings era boxing_mode start require_charm
        template_slots hardcore_required require_run_speed require_ports
      (sd.1, comp, sd.2) ::
        process_comps ratings era boxing_mode start must_include exclude
          require_ports require_run_speed require_charm require_pet_heavy require_kiting
          template_slots hardcore_required allow_duplicate_dps (comp :: seen) rest

/-- `generate_scored_recommendations`: enumerate, filter, score, sort by score
descending (stable), truncate to `limit`.  The Python `return_explain` flag
only drops the explanation from the returned tuples; the explanation is always
carried here. -/
def generate_scored_recommendations (ratings : Ratings) (era : String)
    (available template_slots : List String) (boxing_mode start : String)
    (must_include exclude : List String)
    (require_ports require_run_speed require_charm require_pet_heavy require_kiting : Bool)
    (hardcore_required : Bool) (limit : Nat) : List (Int × List String × ScoreDetail) :=
  let slot_pools := final_slot_pools ratings era available template_slots boxing_mode start
    must_include exclude require_ports require_run_speed require_charm require_pet_heavy
    require_kiting hardcore_required
  let allow_duplicate_dps : Bool := template_slots.count "dps" ≥ 2
  let results := process_comps ratings era boxing_mode start must_include exclude
    require_ports require_run_speed require_charm require_pet_heavy require_kiting
    template_slots hardcore_required allow_duplicate_dps [] (pools_product slot_pools)
  (List.insertionSort (fun a b => b.1 ≤ a.1) results).take limit

-- Claim-side definitions (formalisations of the spec's wording, to be
-- compared against the code-side definitions above).

/-- Python `int()` on a real value: truncation toward zero. -/
def ratTrunc (q : ℚ) : ℤ := if q < 0 then ⌈q⌉ else ⌊q⌋

/-- The classes occurring more than once in a comp. -/
def duplicated_classes (comp : List String) : List String :=
  comp.dedup.filter (fun cls => comp.count cls > 1)

/-- Claim C1 as stated: comps have pairwise-distinct classes unless the
template has ≥ 2 `dps` slots, in which case at most one class is duplicated,
the duplicated class occupies only `dps` slots, it is never Enchanter, and
under manual boxing it is a caster class or Ranger in the luclin/pop eras. -/
def c1_claimed_property (era boxing_mode : String) (template_slots comp : List String) :
    Prop :=
  if template_slots.count "dps" ≥ 2 then
    (duplicated_classes comp).length ≤ 1
    ∧ (∀ p ∈ template_slots.zip comp, p.2 ∈ duplicated_classes comp → p.1 = "dps")
    ∧ "Enchanter" ∉ duplicated_classes comp
    ∧ (boxing_mode = "manual" → ∀ cls ∈ duplicated_classes comp,
        CASTER_DPS.contains cls = true ∨ (cls = "Ranger" ∧ (era = "luclin" ∨ era = "pop")))
  else comp.Nodup

/-- Claim C5 as stated: the `dps` pool is the top 10 available classes ranked
by `dps` rating minus the manual melee penalty plus the start-condition bonus,
and by nothing else. -/
def dps_pool_claimed (available : List String) (ratings : Ratings)
    (era boxing_mode start : String) : List String :=
  rank_top available
    (fun c => get_score ratings era c "dps" - melee_penalty boxing_mode c era
      + start_condition_bonus start c) 10

/-- Claim C5 amended: the ranking key additionally gives Enchanter +30 when
charm is required. -/
def dps_pool_amended (available : List String) (ratings : Ratings)
    (era boxing_mode start : String) (require_charm : Bool) : List String :=
  rank_top available
    (fun c => get_score ratings era c "dps" - melee_penalty boxing_mode c era
      + start_condition_bonus start c
      + (if require_charm ∧ c = "Enchanter" then 30 else 0)) 10

/-- One comp slot's contribution to the total: the slot value plus the +30
charm bonus when charm is required and the class is Enchanter (100-scaled). -/
def slot_contribution (ratings : Ratings) (era boxing_mode : String) (require_charm : Bool)
    (comp template_slots : List String) (p : String × String) : Int :=
  let v := (slot_value ratings era p.2 p.1 boxing_mode comp template_slots).1
  if require_charm ∧ p.2 = "Enchanter" then v + 3000 else v

/-- The sum of all per-slot values (100-scaled). -/
def slot_values_sum (ratings : Ratings) (era boxing_mode : String) (require_charm : Bool)
    (comp template_slots : List String) : Int :=
  ((template_slots.zip comp).map
    (slot_contribution ratings era boxing_mode require_charm comp template_slots)).sum

/-- The sum of all per-class start-condition bonuses over the comp's slots. -/
def start_bonuses_sum (start : String) (comp template_slots : List String) : Int :=
  ((template_slots.zip comp).map (fun p => start_condition_bonus start p.2)).sum

/-- The hardcore Warrior-in-tank-slot bonus. -/
def hardcore_warrior_value (hardcore_required : Bool) (comp template_slots : List String) :
    Int :=
  if hardcore_required ∧ (template_slots.zip comp).any
      (fun p => p.1 = "tank" ∧ p.2 = "Warrior") then 18 else 0

/-- The 100-scaled sum of all per-slot values and whole-comp adjustments of
`score_comp_explain` (the real-valued sum is this divided by 100). -/
def score_scaled_sum (comp : List String) (ratings : Ratings)
    (era boxing_mode start : String) (require_charm : Bool) (template_slots : List String)
    (hardcore_required require_run_speed require_ports : Bool) : Int :=
  slot_values_sum ratings era boxing_mode require_charm comp template_slots
  + 100 * (synergy_bonus comp + charm_synergy_bonus comp
    + classic_double_melee_value comp boxing_mode start
    + hardcore_warrior_value hardcore_required comp template_slots
    + constraint_met_bonus comp require_run_speed require_ports
    + slow_adjust_value comp template_slots
    + tank_stack_value comp
    + charm_snare_value comp require_charm)
  + 40 * start_bonuses_sum start comp template_slots

/-- The real-valued (exact-arithmetic) sum of all per-slot values and
whole-comp bonuses/penalties of `score_comp_explain`. -/
def score_real_sum (comp : List String) (ratings : Ratings)
    (era boxing_mode start : String) (require_charm : Bool) (template_slots : List String)
    (hardcore_required require_run_speed require_ports : Bool) : ℚ :=
  ((score_scaled_sum comp ratings era boxing_mode start require_charm template_slots
    hardcore_required require_run_speed require_ports : Int) : ℚ) / 100

-- Generic lemmas about the list combinators used by the engine.

theorem mem_of_lookup_eq_some {α β : Type} [BEq α] [LawfulBEq α]
    {l : List (α × β)} {k : α} {v : β} (h : l.lookup k = some v) : (k, v) ∈ l := by
  induction l with
  | nil => simp [List.lookup] at h
  | cons a l ih =>
    rw [List.lookup] at h
    by_cases hk : k == a.1
    · rw [hk] at h
      simp only [Option.some.injEq] at h
      subst h
      have : k = a.1 := eq_of_beq hk
      subst this
      exact List.mem_cons_self _ _
    · rw [Bool.of_not_eq_true hk] at h
      exact List.mem_cons_of_mem _ (ih h)

theorem mem_sort_take {α : Type} {r : α → α → Prop} [DecidableRel r] {x : α}
    {l : List α} {n : Nat} (h : x ∈ (List.insertionSort r l).take n) : x ∈ l :=
  (List.perm_insertionSort r l).mem_iff.mp (List.mem_of_mem_take h)

theorem mem_rank_top {pool : List String} {key : String → Int} {n : Nat} {c : String}
    (h : c ∈ rank_top pool key n) : c ∈ pool := by
  unfold rank_top sortScoredDesc at h
  obtain ⟨⟨k, c1⟩, hmem, hc⟩ := List.mem_map.mp h
  cases hc
  obtain ⟨c2, hc2, heq⟩ := List.mem_map.mp (mem_sort_take hmem)
  cases heq
  exact hc2

theorem mem_sortStrings {l : List String} {c : String} (h : c ∈ sortStrings l) : c ∈ l :=
  (List.perm_insertionSort _ l).mem_iff.mp h

theorem mem_pools_product {α : Type} :
    ∀ {pools : List (List α)} {comp : List α}, comp ∈ pools_product pools →
      comp.length = pools.length ∧
        ∀ (i : Nat) (x : α) (pool : List α),
          comp[i]? = some x → pools[i]? = some pool → x ∈ pool := by
  intro pools
  induction pools with
  | nil =>
    intro comp h
    simp only [pools_product, List.mem_singleton] at h
    subst h
    refine ⟨rfl, ?_⟩
    intro i x pool _ h2
    simp at h2
  | cons p rest ih =>
    intro comp h
    simp only [pools_product, List.mem_flatMap, List.mem_map] at h
    obtain ⟨x, hx, cs, hcs, rfl⟩ := h
    obtain ⟨hlen, hmem⟩ := ih hcs
    refine ⟨by simp [hlen], ?_⟩
    intro i y pool h1 h2
    cases i with
    | zero =>
      simp only [List.getElem?_cons_zero, Option.some.injEq] at h1 h2
      subst h1; subst h2
      exact hx
    | succ i =>
      simp only [List.getElem?_cons_succ] at h1 h2
      exact hmem i y pool h1 h2

theorem mem_of_mem_pools_product {α : Type} :
    ∀ {pools : List (List α)} {comp : List α} {x : α},
      comp ∈ pools_product pools → x ∈ comp → ∃ pool ∈ pools, x ∈ pool := by
  intro pools
  induction pools with
  | nil =>
    intro comp x h hx
    simp only [pools_product, List.mem_singleton] at h
    subst h
    simp at hx
  | cons p rest ih =>
    intro comp x h hx
    simp only [pools_product, List.mem_flatMap, List.mem_map] at h
    obtain ⟨y, hy, cs, hcs, rfl⟩ := h
    rcases List.mem_cons.mp hx with rfl | hx2
    · exact ⟨p, List.mem_cons_self _ _, hy⟩
    · obtain ⟨pool, hp, hxp⟩ := ih hcs hx2
      exact ⟨pool, List.mem_cons_of_mem _ hp, hxp⟩

theorem pools_product_eq_nil {α : Type} :
    ∀ {pools : List (List α)} {pool : List α}, pool ∈ pools → pool = [] →
      pools_product pools = [] := by
  intro pools
  induction pools with
  | nil => intro pool h; simp at h
  | cons p rest ih =>
    intro pool h hnil
    rcases List.mem_cons.mp h with rfl | h2
    · subst hnil
      simp [pools_product]
    · simp only [pools_product, ih h2 hnil]
      simp

theorem mem_process_comps {ratings : Ratings} {era boxing_mode start : String}
    {must_include exclude : List String} {rp rrs rc rph rk : Bool}
    {template_slots : List String} {hardcore_required allow_duplicate_dps : Bool}
    {r : Int × List String × ScoreDetail} :
    ∀ {seen l : List (List String)},
      r ∈ process_comps ratings era boxing_mode start must_include exclude
        rp rrs rc rph rk template_slots hardcore_required allow_duplicate_dps seen l →
      r.2.1 ∈ l
      ∧ comp_dup_ok r.2.1 allow_duplicate_dps boxing_mode era = true
      ∧ comp_matches_filters r.2.1 must_include exclude = true
      ∧ comp_matches_constraints r.2.1 rp rrs rc rph rk = true
      ∧ score_comp_explain r.2.1 ratings era boxing_mode start rc template_slots
          hardcore_required rrs rp = (r.1, r.2.2) := by
  intro seen l
  induction l generalizing seen with
  | nil => intro h; simp [process_comps] at h
  | cons comp rest ih =>
    intro h
    rw [process_comps] at h
    split at h
    · obtain ⟨h1, h2, h3, h4, h5⟩ := ih h
      exact ⟨List.mem_cons_of_mem _ h1, h2, h3, h4, h5⟩
    · next hdup =>
      split at h
      · obtain ⟨h1, h2, h3, h4, h5⟩ := ih h
        exact ⟨List.mem_cons_of_mem _ h1, h2, h3, h4, h5⟩
      · split at h
        · obtain ⟨h1, h2, h3, h4, h5⟩ := ih h
          exact ⟨List.mem_cons_of_mem _ h1, h2, h3, h4, h5⟩
        · next hfil =>
          split at h
          · obtain ⟨h1, h2, h3, h4, h5⟩ := ih h
            exact ⟨List.mem_cons_of_mem _ h1, h2, h3, h4, h5⟩
          · next hcon =>
            rcases List.mem_cons.mp h with rfl | h2
            · refine ⟨List.mem_cons_self _ _, ?_, ?_, ?_, rfl⟩
              · exact not_not.mp hdup
              · exact not_not.mp hfil
              · exact not_not.mp hcon
            · obtain ⟨h1, h2, h3, h4, h5⟩ := ih h2
              exact ⟨List.mem_cons_of_mem _ h1, h2, h3, h4, h5⟩

theorem mem_generate {ratings : Ratings} {era : String}
    {available template_slots : List String} {boxing_mode start : String}
    {must_include exclude : List String} {rp rrs rc rph rk hardcore_required : Bool}
    {limit : Nat} {r : Int × List String × ScoreDetail}
    (h : r ∈ generate_scored_recommendations ratings era available template_slots
      boxing_mode start must_include exclude rp rrs rc rph rk hardcore_required limit) :
    r.2.1 ∈ pools_product (final_slot_pools ratings era available template_slots
        boxing_mode start must_include exclude rp rrs rc rph rk hardcore_required)
    ∧ comp_dup_ok r.2.1 (decide (template_slots.count "dps" ≥ 2)) boxing_mode era = true
    ∧ comp_matches_filters r.2.1 must_include exclude = true
    ∧ comp_matches_constraints r.2.1 rp rrs rc rph rk = true
    ∧ score_comp_explain r.2.1 ratings era boxing_mode start rc template_slots
        hardcore_required rrs rp = (r.1, r.2.2) := by
  unfold generate_scored_recommendations at h
  exact mem_process_comps (mem_sort_take h)

theorem role_candidates_body_subset {avail : List String} {ratings : Ratings}
    {era role boxing_mode start : String} {require_charm : Bool} {c : String}
    (h : c ∈ role_candidates_body avail ratings era role boxing_mode start require_charm) :
    c ∈ avail := by
  have hfilter : ∀ (p : String → Bool) (key : String → Int) (n : Nat),
      c ∈ rank_top (avail.filter p) key n → c ∈ avail := by
    intro p key n hm
    exact (List.mem_filter.mp (mem_rank_top hm)).1
  have hfilter2 : ∀ (p q : String → Bool) (key : String → Int) (n : Nat),
      c ∈ rank_top ((avail.filter p).filter q) key n → c ∈ avail := by
    intro p q key n hm
    exact (List.mem_filter.mp (List.mem_filter.mp (mem_rank_top hm)).1).1
  have havail : ∀ (key : String → Int) (n : Nat),
      c ∈ rank_top avail key n → c ∈ avail := by
    intro key n hm
    exact mem_rank_top hm
  have htop : ∀ (cat : String) (n : Nat),
      c ∈ top_by avail ratings era boxing_mode start require_charm cat n → c ∈ avail := by
    intro cat n hm
    exact mem_rank_top hm
  rw [role_candidates_body] at h
  by_cases h1 : role = "tank"
  · rw [if_pos h1] at h; exact hfilter _ _ _ h
  rw [if_neg h1] at h
  by_cases h2 : role = "healer"
  · rw [if_pos h2] at h; exact hfilter _ _ _ h
  rw [if_neg h2] at h
  by_cases h3 : role = "slow"
  · rw [if_pos h3] at h
    simp only [] at h
    split at h
    · exact (List.mem_filter.mp h).1
    · exact htop _ _ h
  rw [if_neg h3] at h
  by_cases h4 : role = "cc"
  · rw [if_pos h4] at h
    simp only [] at h
    split at h
    · exact (List.mem_filter.mp h).1
    · exact htop _ _ h
  rw [if_neg h4] at h
  by_cases h5 : role = "pet_tank"
  · rw [if_pos h5] at h; exact hfilter _ _ _ h
  rw [if_neg h5] at h
  by_cases h6 : role = "charm_tank"
  · rw [if_pos h6] at h
    split at h
    · simp at h
    · next hench =>
      simp only [List.mem_singleton] at h
      subst h
      simpa using not_not.mp hench
  rw [if_neg h6] at h
  by_cases h7 : role = "charm_partner"
  · rw [if_pos h7] at h
    simp only [] at h
    split at h
    · exact hfilter2 _ _ _ _ h
    · exact hfilter _ _ _ h
  rw [if_neg h7] at h
  by_cases h8 : role = "pet_partner"
  · rw [if_pos h8] at h
    simp only [] at h
    split at h
    · exact hfilter _ _ _ h
    · exact havail _ _ h
  rw [if_neg h8] at h
  by_cases h9 : role = "kiter"
  · rw [if_pos h9] at h; exact hfilter _ _ _ h
  rw [if_neg h9] at h
  by_cases h10 : role = "kiter_swarm"
  · rw [if_pos h10] at h
    split at h
    · simp at h
    · next hbard =>
      simp only [List.mem_singleton] at h
      subst h
      simpa using not_not.mp hbard
  rw [if_neg h10] at h
  by_cases h11 : role = "kiter_fear_snare"
  · rw [if_pos h11] at h; exact hfilter _ _ _ h
  rw [if_neg h11] at h
  by_cases h12 : role = "kite_partner_swarm"
  · rw [if_pos h12] at h
    simp only [] at h
    split at h
    · exact hfilter _ _ _ h
    · exact havail _ _ h
  rw [if_neg h12] at h
  by_cases h13 : role = "kite_partner_fear_snare"
  · rw [if_pos h13] at h
    simp only [] at h
    split at h
    · exact hfilter _ _ _ h
    · exact havail _ _ h
  rw [if_neg h13] at h
  by_cases h14 : role = "support"
  · rw [if_pos h14] at h; exact havail _ _ h
  rw [if_neg h14] at h
  by_cases h15 : role = "dps"
  · rw [if_pos h15] at h; exact htop _ _ h
  rw [if_neg h15] at h
  exact htop _ _ h

theorem role_candidates_subset {available : List String} {ratings : Ratings}
    {era role boxing_mode start : String} {require_charm : Bool} {c : String}
    (h : c ∈ role_candidates available ratings era role boxing_mode start require_charm) :
    c ∈ available :=
  role_candidates_body_subset h

theorem mem_of_mem_enum {α : Type} {l : List α} {p : Nat × α} (h : p ∈ l.enum) :
    p.2 ∈ l := by
  have := List.mem_enum_iff_getElem?.mp h
  exact List.getElem?_mem this

theorem foldl_filter_mem {α β : Type} {x : α} :
    ∀ {l : List β} {a : List α} {p : β → α → Bool},
      x ∈ l.foldl (fun acc j => acc.filter (p j)) a → x ∈ a := by
  intro l
  induction l with
  | nil => intro a p h; exact h
  | cons j rest ih =>
    intro a p h
    exact (List.mem_filter.mp (ih h)).1

theorem inter_all_subset {reqs : List (List String)} {idxs : List Nat} {x : String}
    (h : x ∈ inter_all reqs idxs) : ∃ r ∈ reqs, x ∈ r := by
  match idxs with
  | [] => simp [inter_all] at h
  | i :: rest =>
    rw [inter_all] at h
    have hx : x ∈ reqs.getD i [] := foldl_filter_mem h
    rw [List.getD_eq_getElem?_getD] at hx
    cases hr : reqs[i]? with
    | none => rw [hr] at hx; simp at hx
    | some r =>
      rw [hr] at hx
      exact ⟨r, List.getElem?_mem hr, hx⟩

theorem best_group_pass_subset {reqs : List (List String)} {P : String → Prop}
    (hreqs : ∀ r ∈ reqs, ∀ x ∈ r, P x) :
    ∀ {cands : List (List Nat)} {best : List String × List Nat},
      (∀ x ∈ best.1, P x) →
      ∀ x ∈ (best_group_pass reqs cands best).1, P x := by
  intro cands
  induction cands with
  | nil => intro best hbest; exact hbest
  | cons idxs rest ih =>
    intro best hbest
    rw [best_group_pass] at *
    simp only [List.foldl_cons]
    apply ih
    split
    · exact hbest
    · split
      · intro x hx
        obtain ⟨r, hr, hxr⟩ := inter_all_subset hx
        exact hreqs r hr x hxr
      · split
        · intro x hx
          obtain ⟨r, hr, hxr⟩ := inter_all_subset hx
          exact hreqs r hr x hxr
        · exact hbest

theorem best_intersection_group_subset {reqs : List (List String)} {P : String → Prop}
    (hreqs : ∀ r ∈ reqs, ∀ x ∈ r, P x) :
    ∀ x ∈ (best_intersection_group reqs).1, P x := by
  rw [best_intersection_group]
  simp only []
  split
  · exact best_group_pass_subset hreqs (by intro x hx; simp at hx)
  · split
    · exact best_group_pass_subset hreqs
        (best_group_pass_subset hreqs (by intro x hx; simp at hx))
    · exact best_group_pass_subset hreqs
        (best_group_pass_subset hreqs
          (best_group_pass_subset hreqs (by intro x hx; simp at hx)))

theorem remove_at_indices_mem {reqs : List (List String)} {idxs : List Nat}
    {r : List String} (h : r ∈ remove_at_indices reqs idxs) : r ∈ reqs := by
  rw [remove_at_indices] at h
  obtain ⟨p, hp, rfl⟩ := List.mem_map.mp h
  exact mem_of_mem_enum (List.mem_filter.mp hp).1

theorem force_loop_subset {P : String → Prop} :
    ∀ {slots : List Nat} {reqs : List (List String)},
      (∀ r ∈ reqs, ∀ x ∈ r, P x) →
      ∀ i pool, (i, pool) ∈ force_loop reqs slots → ∀ x ∈ pool, P x := by
  intro slots
  induction slots with
  | nil => intro reqs _ i pool h; simp [force_loop] at h
  | cons slot_idx rest ih =>
    intro reqs hreqs i pool h
    rw [force_loop] at h
    split at h
    · simp at h
    · simp only [] at h
      split at h
      · simp at h
      · rcases List.mem_cons.mp h with heq | h2
        · cases heq
          exact best_intersection_group_subset hreqs
        · exact ih (fun r hr => hreqs r (remove_at_indices_mem hr)) i pool h2

theorem build_requirement_sets_subset {available_set : List String}
    {rc rph rk : Bool} {already_satisfied : List String} {r : List String}
    (h : r ∈ build_requirement_sets available_set rc rph rk already_satisfied) :
    ∀ x ∈ r, x ∈ available_set := by
  rw [build_requirement_sets] at h
  have h2 := (List.mem_filter.mp h).1
  intro x hx
  rcases List.mem_append.mp h2 with h3 | h3
  · rcases List.mem_append.mp h3 with h4 | h4
    · split at h4
      · simp only [List.mem_singleton] at h4
        subst h4
        simpa using (List.mem_filter.mp hx).2
      · simp at h4
    · split at h4
      · simp only [List.mem_singleton] at h4
        subst h4
        simpa using (List.mem_filter.mp hx).2
      · simp at h4
  · split at h3
    · simp only [List.mem_singleton] at h3
      subst h3
      simpa using (List.mem_filter.mp hx).2
    · simp at h3

theorem force_constraints_subset {template_slots available : List String}
    {rp rrs rc rph rk : Bool} {already_satisfied : List String} {hardcore_required : Bool}
    {i : Nat} {pool : List String}
    (h : (i, pool) ∈ force_constraints_into_slots template_slots available
      rp rrs rc rph rk already_satisfied hardcore_required) :
    ∀ x ∈ pool, x ∈ available := by
  rw [force_constraints_into_slots] at h
  split at h
  · simp at h
  · simp only [] at h
    split at h
    · simp at h
    · exact force_loop_subset (fun r hr => build_requirement_sets_subset hr) i pool h

theorem hardcore_forced_subset {template_slots available_set : List String}
    {hardcore_required : Bool} {i : Nat} {pool : List String}
    (h : (i, pool) ∈ hardcore_forced_slots template_slots available_set hardcore_required) :
    ∀ x ∈ pool, x ∈ available_set := by
  rw [hardcore_forced_slots] at h
  split at h
  · intro x hx
    have hone : ∀ (cls : String) (slot : String),
        available_set.contains cls = true →
        (i, pool) ∈ ((if available_set.contains cls then
          ((template_slots.findIdx? (fun s => s == slot)).map
            (fun j => (j, [cls]))).toList else []) : List (Nat × List String)) →
        x ∈ available_set := by
      intro cls slot hcls hmem
      rw [if_pos hcls] at hmem
      cases hfi : template_slots.findIdx? (fun s => s == slot) with
      | none => rw [hfi] at hmem; simp at hmem
      | some j =>
        rw [hfi] at hmem
        simp at hmem
        obtain ⟨rfl, rfl⟩ := hmem
        simp only [List.mem_singleton] at hx
        subst hx
        simpa using hcls
    rcases List.mem_append.mp h with h3 | h3
    · rcases List.mem_append.mp h3 with h4 | h4
      · by_cases hc : available_set.contains "Cleric"
        · exact hone "Cleric" "healer" hc h4
        · rw [if_neg hc] at h4; simp at h4
      · by_cases hc : available_set.contains "Shaman"
        · exact hone "Shaman" "slow" hc h4
        · rw [if_neg hc] at h4; simp at h4
    · by_cases hc : available_set.contains "Bard"
      · exact hone "Bard" "cc" hc h3
      · rw [if_neg hc] at h3; simp at h3
  · simp at h

theorem getD_mem_of_lt {α : Type} {l : List α} {i : Nat} {d : α} (h : i < l.length) :
    l.getD i d ∈ l := by
  rw [List.getD_eq_getElem?_getD, List.getElem?_eq_getElem h]
  exact List.getElem_mem h

theorem base_slot_pools_subset {ratings : Ratings} {era : String}
    {available template_slots : List String} {boxing_mode start : String}
    {rp rrs rc rph rk hardcore_required : Bool} {pool : List String}
    (h : pool ∈ base_slot_pools ratings era available template_slots boxing_mode start
      rp rrs rc rph rk hardcore_required) :
    ∀ x ∈ pool, x ∈ available := by
  rw [base_slot_pools] at h
  simp only [List.mem_map] at h
  obtain ⟨p, _, hp⟩ := h
  revert hp
  split
  · next pool2 hlk =>
    intro hp
    subst hp
    exact hardcore_forced_subset (mem_of_lookup_eq_some hlk)
  · split
    · next pool2 hlk =>
      intro hp
      subst hp
      intro x hx
      exact force_constraints_subset (mem_of_lookup_eq_some hlk) x (mem_sortStrings hx)
    · intro hp
      subst hp
      intro x hx
      exact role_candidates_subset hx

theorem inject_must_include_subset {pools : List (List String)}
    {must_include exclude available template_slots : List String}
    {hardcore_slot_indices : List Nat}
    (hpools : ∀ pool ∈ pools, ∀ x ∈ pool, x ∈ available) :
    ∀ pool ∈ inject_must_include pools must_include exclude available template_slots
      hardcore_slot_indices, ∀ x ∈ pool, x ∈ available := by
  rw [inject_must_include]
  induction must_include generalizing pools with
  | nil => exact hpools
  | cons cls rest ih =>
    simp only [List.foldl_cons]
    apply ih
    split
    · exact hpools
    · split
      · exact hpools
      · split
        · next hlt =>
          intro pool hpool x hx
          rcases List.mem_or_eq_of_mem_set hpool with hmem | rfl
          · exact hpools pool hmem x hx
          · revert hx
            split
            · intro hx
              exact hpools _ (getD_mem_of_lt hlt) x hx
            · intro hx
              rcases List.mem_append.mp hx with h1 | h1
              · exact hpools _ (getD_mem_of_lt hlt) x h1
              · simp only [List.mem_singleton] at h1
                subst h1
                next hav _ _ =>
                  have h2 := not_or.mp hav
                  have h3 := not_not.mp h2.1
                  simpa using h3
        · exact hpools

theorem final_slot_pools_subset {ratings : Ratings} {era : String}
    {available template_slots : List String} {boxing_mode start : String}
    {must_include exclude : List String} {rp rrs rc rph rk hardcore_required : Bool}
    {pool : List String}
    (h : pool ∈ final_slot_pools ratings era available template_slots boxing_mode start
      must_include exclude rp rrs rc rph rk hardcore_required) :
    ∀ x ∈ pool, x ∈ available := by
  rw [final_slot_pools] at h
  exact inject_must_include_subset (fun pool hp => base_slot_pools_subset hp) pool h

theorem comp_matches_filters_spec {comp must_include exclude : List String}
    (h : comp_matches_filters comp must_include exclude = true) :
    (∀ x ∈ comp, x ∉ exclude) ∧ ∀ m ∈ must_include, m ∈ comp := by
  rw [comp_matches_filters] at h
  split at h
  · cases h
  · next h1 =>
    split at h
    · cases h
    · next h2 =>
      constructor
      · intro x hx hxe
        exact h1 (List.any_eq_true.mpr ⟨x, hx, by simpa using hxe⟩)
      · intro m hm
        have h3 := not_not.mp h2
        rw [List.all_eq_true] at h3
        simpa using h3 m hm

/-- A placeholder explanation record (used only to take the head of a
nonempty result list in concrete witnesses). -/
def empty_detail : ScoreDetail :=
  ⟨0, 0, [], [], false, false, 0, 0, 0, 0, 0, 0, 0, 0, 0, 0⟩

/-- First element of a result list (the top-scored recommendation). -/
def first_result (l : List (Int × List String × ScoreDetail)) :
    Int × List String × ScoreDetail :=
  l.headD (0, [], empty_detail)

/-- C2: every comp returned by `generate_scored_recommendations` contains no
class of the exclude set and contains every class of the must-include set. -/
theorem c2_must_include_exclude_law (ratings : Ratings) (era : String)
    (available template_slots : List String) (boxing_mode start : String)
    (must_include exclude : List String) (rp rrs rc rph rk hardcore_required : Bool)
    (limit : Nat) :
    ∀ r ∈ generate_scored_recommendations ratings era available template_slots boxing_mode
      start must_include exclude rp rrs rc rph rk hardcore_required limit,
      (∀ x ∈ exclude, x ∉ r.2.1) ∧ (∀ m ∈ must_include, m ∈ r.2.1) := by
  intro r hr
  obtain ⟨_, _, hfil, _, _⟩ := mem_generate hr
  obtain ⟨hex, hmust⟩ := comp_matches_filters_spec hfil
  exact ⟨fun x hx hxc => hex x hxc hx, hmust⟩

def c2_first : Int × List String × ScoreDetail :=
  first_result (generate_scored_recommendations [] "e" ["Shaman", "Wizard"]
    ["healer", "slow", "dps", "dps"] "assisted" "assisted" ["Wizard"] ["Enchanter"]
    false false false false false false 15)

theorem c2_witness :
    "Enchanter" ∉ c2_first.2.1 ∧ "Wizard" ∈ c2_first.2.1 :=
  ⟨(c2_must_include_exclude_law [] "e" ["Shaman", "Wizard"]
      ["healer", "slow", "dps", "dps"] "assisted" "assisted" ["Wizard"] ["Enchanter"]
      false false false false false false 15 c2_first (by decide)).1 "Enchanter" (by decide),
   (c2_must_include_exclude_law [] "e" ["Shaman", "Wizard"]
      ["healer", "slow", "dps", "dps"] "assisted" "assisted" ["Wizard"] ["Enchanter"]
      false false false false false false 15 c2_first (by decide)).2 "Wizard" (by decide)⟩

/-- C9: every class occurring in any slot of any returned comp is a member of
the `available` argument. -/
theorem c9_only_available_classes (ratings : Ratings) (era : String)
    (available template_slots : List String) (boxing_mode start : String)
    (must_include exclude : List String) (rp rrs rc rph rk hardcore_required : Bool)
    (limit : Nat) :
    ∀ r ∈ generate_scored_recommendations ratings era available template_slots boxing_mode
      start must_include exclude rp rrs rc rph rk hardcore_required limit,
      ∀ cls ∈ r.2.1, cls ∈ available := by
  intro r hr cls hcls
  obtain ⟨hprod, _⟩ := mem_generate hr
  obtain ⟨pool, hpool, hx⟩ := mem_of_mem_pools_product hprod hcls
  exact final_slot_pools_subset hpool cls hx

def c9_first : Int × List String × ScoreDetail :=
  first_result (generate_scored_recommendations [] "e" ["Shaman", "Wizard"]
    ["healer", "slow", "dps", "dps"] "assisted" "assisted" [] []
    false false false false false false 15)

theorem c9_witness : "Shaman" ∈ (["Shaman", "Wizard"] : List String) :=
  c9_only_available_classes [] "e" ["Shaman", "Wizard"]
    ["healer", "slow", "dps", "dps"] "assisted" "assisted" [] []
    false false false false false false 15 c9_first (by decide) "Shaman" (by decide)

theorem comp_dup_ok_spec {comp : List String} {allow : Bool} {boxing_mode era : String}
    (h : comp_dup_ok comp allow boxing_mode era = true) :
    (allow = false → comp.Nodup)
    ∧ comp.count "Enchanter" ≤ 1
    ∧ (boxing_mode = "manual" → ∀ cls, comp.count cls > 1 →
        MELEE_DPS.contains cls = false ∨ (cls = "Ranger" ∧ (era = "luclin" ∨ era = "pop"))) := by
  rw [comp_dup_ok] at h
  split at h
  · next hnd =>
    refine ⟨fun _ => hnd, ?_, ?_⟩
    · exact List.nodup_iff_count_le_one.mp hnd "Enchanter"
    · intro _ cls hcls
      have := List.nodup_iff_count_le_one.mp hnd cls
      omega
  · next hnd =>
    split at h
    · cases h
    · next hallow =>
      split at h
      · cases h
      · next hench =>
        split at h
        · cases h
        · next hmanual =>
          refine ⟨fun hf => absurd hf (by simpa using not_not.mp hallow), by omega, ?_⟩
          intro hbm cls hcls
          by_cases hmel : MELEE_DPS.contains cls
          · right
            by_contra hrang
            apply hmanual
            refine ⟨hbm, List.any_eq_true.mpr ⟨cls, ?_, ?_⟩⟩
            · exact List.count_pos_iff.mp (by omega)
            · simp only [decide_eq_true_eq]
              exact ⟨hcls, hmel, fun hr => hrang hr⟩
          · left
            simpa using hmel

/-- C1 (amended): a returned comp has pairwise-distinct classes when the
template has fewer than two `dps` slots; with two or more `dps` slots
duplicates are admitted (in any slots, possibly several distinct duplicated
classes), but Enchanter is never duplicated and under manual boxing no
melee-DPS class is duplicated except Ranger in the luclin/pop eras. -/
theorem c1_duplicate_rules (ratings : Ratings) (era : String)
    (available template_slots : List String) (boxing_mode start : String)
    (must_include exclude : List String) (rp rrs rc rph rk hardcore_required : Bool)
    (limit : Nat) :
    ∀ r ∈ generate_scored_recommendations ratings era available template_slots boxing_mode
      start must_include exclude rp rrs rc rph rk hardcore_required limit,
      (template_slots.count "dps" < 2 → r.2.1.Nodup)
      ∧ r.2.1.count "Enchanter" ≤ 1
      ∧ (boxing_mode = "manual" → ∀ cls, r.2.1.count cls > 1 →
          MELEE_DPS.contains cls = false ∨ (cls = "Ranger" ∧ (era = "luclin" ∨ era = "pop"))) := by
  intro r hr
  obtain ⟨_, hdup, _, _, _⟩ := mem_generate hr
  obtain ⟨h1, h2, h3⟩ := comp_dup_ok_spec hdup
  refine ⟨?_, h2, h3⟩
  intro hlt
  apply h1
  simpa using hlt

def c1_cex_results : List (Int × List String × ScoreDetail) :=
  generate_scored_recommendations [] "e" ["Shaman", "Wizard"]
    ["healer", "slow", "dps", "dps"] "assisted" "assisted" [] []
    false false false false false false 15

/-- C1 counterexample: with template `[healer, slow, dps, dps]` and only Shaman
and Wizard available, the returned comp `[Shaman, Shaman, Wizard, Wizard]` has
two duplicated classes, and the duplicated Shaman occupies the `healer` and
`slow` slots, falsifying both the "at most one class is duplicated" and the
"duplicated class occupies only dps slots" parts of the claim. -/
theorem c1_counterexample :
    (["Shaman", "Shaman", "Wizard", "Wizard"] : List String)
      ∈ c1_cex_results.map (fun r => r.2.1)
    ∧ ¬ c1_claimed_property "e" "assisted" ["healer", "slow", "dps", "dps"]
        ["Shaman", "Shaman", "Wizard", "Wizard"] := by
  constructor
  · decide
  · intro hcp
    rw [c1_claimed_property, if_pos (by decide)] at hcp
    revert hcp
    decide

theorem c1_witness :
    (first_result c1_cex_results).2.1.count "Enchanter" ≤ 1 :=
  (c1_duplicate_rules [] "e" ["Shaman", "Wizard"] ["healer", "slow", "dps", "dps"]
    "assisted" "assisted" [] [] false false false false false false 15
    (first_result c1_cex_results) (by decide)).2.1

theorem mem_map_fst_filter_enum {ts : List String} {i : Nat} {p : Nat × String → Bool}
    (h : i ∈ (ts.enum.filter p).map Prod.fst) :
    ∃ s, ts[i]? = some s ∧ p (i, s) = true := by
  obtain ⟨⟨j, s⟩, hmem, rfl⟩ := List.mem_map.mp h
  obtain ⟨henum, hp⟩ := List.mem_filter.mp hmem
  exact ⟨s, List.mem_enum_iff_getElem?.mp henum, hp⟩

theorem flex_slot_indices_spec {template_slots : List String} {hardcore_required : Bool}
    {i : Nat} (h : i ∈ flex_slot_indices template_slots hardcore_required) :
    template_slots[i]? ≠ some "tank" ∧ template_slots[i]? ≠ some "charm_tank"
    ∧ (hardcore_required = true → template_slots[i]? = some "dps") := by
  rw [flex_slot_indices] at h
  split at h
  · next hhc =>
    obtain ⟨s, hs, hp⟩ := mem_map_fst_filter_enum h
    simp only [beq_iff_eq] at hp
    subst hp
    rw [hs]
    refine ⟨by simp, by simp, fun _ => rfl⟩
  · next hhc =>
    split at h
    · next hts =>
      subst hts
      rw [Bool.not_eq_true] at hhc
      subst hhc
      simp only [List.mem_cons, List.mem_singleton] at h
      rcases h with rfl | rfl | h
      · exact ⟨by decide, by decide, by simp⟩
      · exact ⟨by decide, by decide, by simp⟩
      · simp at h
    · rw [Bool.not_eq_true] at hhc
      subst hhc
      rcases List.mem_append.mp h with h1 | h1
      · obtain ⟨name, hname, h2⟩ := List.mem_flatMap.mp h1
        obtain ⟨s, hs, hp⟩ := mem_map_fst_filter_enum h2
        simp only [beq_iff_eq] at hp
        subst hp
        rw [hs]
        refine ⟨?_, ?_, by simp⟩
        · intro hcon
          simp only [Option.some.injEq] at hcon
          subst hcon
          simp at hname
        · intro hcon
          simp only [Option.some.injEq] at hcon
          subst hcon
          simp at hname
      · obtain ⟨s, hs, hp⟩ := mem_map_fst_filter_enum h1
        simp only [Bool.and_eq_true, Bool.not_eq_true'] at hp
        rw [hs]
        have hnf : ((["tank", "charm_tank"] : List String).contains s) = false := hp.2
        refine ⟨?_, ?_, by simp⟩
        · intro hcon
          simp only [Option.some.injEq] at hcon
          subst hcon
          simp at hnf
        · intro hcon
          simp only [Option.some.injEq] at hcon
          subst hcon
          simp at hnf

theorem force_loop_keys {i : Nat} {pool : List String} :
    ∀ {slots : List Nat} {reqs : List (List String)},
      (i, pool) ∈ force_loop reqs slots → i ∈ slots := by
  intro slots
  induction slots with
  | nil => intro reqs h; simp [force_loop] at h
  | cons slot_idx rest ih =>
    intro reqs h
    rw [force_loop] at h
    split at h
    · simp at h
    · simp only [] at h
      split at h
      · simp at h
      · rcases List.mem_cons.mp h with heq | h2
        · cases heq
          exact List.mem_cons_self _ _
        · exact List.mem_cons_of_mem _ (ih h2)

/-- C3: `force_constraints_into_slots` never returns the index of a `tank` or
`charm_tank` slot as a key, and under hardcore focus every key is the index of
a `dps` slot. -/
theorem c3_forced_keys_never_tank (template_slots available : List String)
    (rp rrs rc rph rk : Bool) (already_satisfied : List String) (hardcore_required : Bool) :
    ∀ i pool, (i, pool) ∈ force_constraints_into_slots template_slots available
      rp rrs rc rph rk already_satisfied hardcore_required →
      template_slots[i]? ≠ some "tank" ∧ template_slots[i]? ≠ some "charm_tank"
      ∧ (hardcore_required = true → template_slots[i]? = some "dps") := by
  intro i pool h
  rw [force_constraints_into_slots] at h
  split at h
  · simp at h
  · simp only [] at h
    split at h
    · simp at h
    · exact flex_slot_indices_spec (force_loop_keys h)

theorem c3_witness : (["tank", "dps"] : List String)[1]? = some "dps" :=
  (c3_forced_keys_never_tank ["tank", "dps"] ["Enchanter", "Warrior"]
    false false true false false [] true 1 ["Enchanter"] (by decide)).2.2 rfl

theorem lexLe_cons {a b : Char} {as bs : List Char} :
    lexLe (a :: as) (b :: bs) = true ↔
      a.toNat < b.toNat ∨ (a.toNat = b.toNat ∧ lexLe as bs = true) := by
  rw [lexLe]
  split
  · next h => simp [h]
  · next h =>
    split
    · next h2 =>
      constructor
      · intro hcon; cases hcon
      · rintro (hlt | ⟨heq, _⟩)
        · exact absurd hlt h
        · exact absurd h2 (by omega)
    · next h2 =>
      have heq : a.toNat = b.toNat := by omega
      simp [heq, h]

theorem lexLe_total : ∀ as bs : List Char, lexLe as bs = true ∨ lexLe bs as = true := by
  intro as
  induction as with
  | nil => intro bs; left; rfl
  | cons a as ih =>
    intro bs
    cases bs with
    | nil => right; rfl
    | cons b bs =>
      rcases Nat.lt_trichotomy a.toNat b.toNat with h | h | h
      · left; exact lexLe_cons.mpr (Or.inl h)
      · rcases ih bs with h2 | h2
        · left; exact lexLe_cons.mpr (Or.inr ⟨h, h2⟩)
        · right; exact lexLe_cons.mpr (Or.inr ⟨h.symm, h2⟩)
      · right; exact lexLe_cons.mpr (Or.inl h)

theorem lexLe_trans :
    ∀ as bs cs : List Char, lexLe as bs = true → lexLe bs cs = true →
      lexLe as cs = true := by
  intro as
  induction as with
  | nil => intro bs cs _ _; rfl
  | cons a as ih =>
    intro bs cs hab hbc
    cases bs with
    | nil => simp [lexLe] at hab
    | cons b bs =>
      cases cs with
      | nil => simp [lexLe] at hbc
      | cons c cs =>
        rcases lexLe_cons.mp hab with h1 | ⟨h1, h1r⟩ <;>
          rcases lexLe_cons.mp hbc with h2 | ⟨h2, h2r⟩
        · exact lexLe_cons.mpr (Or.inl (by omega))
        · exact lexLe_cons.mpr (Or.inl (by omega))
        · exact lexLe_cons.mpr (Or.inl (by omega))
        · exact lexLe_cons.mpr (Or.inr ⟨by omega, ih bs cs h1r h2r⟩)

theorem strLe_total (a b : String) : strLe a b = true ∨ strLe b a = true :=
  lexLe_total a.data b.data

theorem strLe_trans {a b c : String} (h1 : strLe a b = true) (h2 : strLe b c = true) :
    strLe a c = true :=
  lexLe_trans a.data b.data c.data h1 h2

theorem sortStrings_sorted (l : List String) :
    (sortStrings l).Sorted (fun a b => strLe a b = true) :=
  @List.sorted_insertionSort String (fun a b => strLe a b = true) _
    ⟨strLe_total⟩ ⟨fun _ _ _ => strLe_trans⟩ l

theorem sortStrings_nodup {l : List String} (h : l.Nodup) : (sortStrings l).Nodup :=
  (List.perm_insertionSort _ l).nodup_iff.mpr h

theorem mem_sortStrings_iff {l : List String} {c : String} : c ∈ sortStrings l ↔ c ∈ l :=
  (List.perm_insertionSort _ l).mem_iff

/-- C7: `get_available_classes` returns the sorted duplicate-free list of
(classes rated in the era, union the ruleset's additions for the era) minus
the ruleset's removals for the era; it is a pure function, so two calls with
identical inputs give identical output. -/
theorem c7_get_available_classes_spec (ratings : Ratings) (era : String) (ruleset : Ruleset) :
    (∀ c, c ∈ get_available_classes ratings era ruleset ↔
      ((c ∈ ((ratings.lookup era).getD []).map Prod.fst
          ∨ c ∈ (ruleset.add_classes_by_era.lookup era).getD [])
        ∧ c ∉ (ruleset.remove_classes_by_era.lookup era).getD []))
    ∧ (get_available_classes ratings era ruleset).Sorted (fun a b => strLe a b = true)
    ∧ (get_available_classes ratings era ruleset).Nodup
    ∧ get_available_classes ratings era ruleset = get_available_classes ratings era ruleset := by
  refine ⟨?_, sortStrings_sorted _, sortStrings_nodup ?_, rfl⟩
  · intro c
    rw [get_available_classes]
    simp only [mem_sortStrings_iff, List.mem_filter, List.mem_dedup, List.mem_append,
      decide_eq_true_eq]
    constructor
    · rintro ⟨h1, h2⟩
      exact ⟨h1, by simpa using h2⟩
    · rintro ⟨h1, h2⟩
      exact ⟨h1, by simpa using h2⟩
  · exact (List.nodup_dedup _).filter _

theorem rank_top_congr {pool : List String} {key1 key2 : String → Int} {n : Nat}
    (h : ∀ c ∈ pool, key1 c = key2 c) : rank_top pool key1 n = rank_top pool key2 n := by
  have hmap : pool.map (fun c => (key1 c, c)) = pool.map (fun c => (key2 c, c)) :=
    List.map_congr_left (fun c hc => by rw [h c hc])
  unfold rank_top
  rw [hmap]

/-- C5 counterexample: with charm required and Enchanter available, the code's
`dps` ranking gives Enchanter a +30 bump, so the returned pool differs from
the pool ranked by the claimed key (dps rating − melee penalty + start bonus),
i.e. the ranking key does depend on `require_charm`. -/
theorem c5_counterexample :
    role_candidates ["Enchanter", "Wizard"]
        [("e", [("Enchanter", [("dps", 10)]), ("Wizard", [("dps", 20)])])]
        "e" "dps" "assisted" "assisted" true
      ≠ dps_pool_claimed ["Enchanter", "Wizard"]
        [("e", [("Enchanter", [("dps", 10)]), ("Wizard", [("dps", 20)])])]
        "e" "assisted" "assisted" := by
  decide

/-- C5 (amended): the `dps` pool is the top 10 available classes ranked by
dps rating minus the manual melee penalty plus the start-condition bonus plus
a +30 Enchanter bump when charm is required, and by nothing else. -/
theorem c5_dps_pool_ranking (available : List String) (ratings : Ratings)
    (era boxing_mode start : String) (require_charm : Bool) :
    role_candidates available ratings era "dps" boxing_mode start require_charm
      = dps_pool_amended available ratings era boxing_mode start require_charm := by
  have hbranch : role_candidates available ratings era "dps" boxing_mode start require_charm
      = top_by available ratings era boxing_mode start require_charm "dps" 10 := by
    rw [role_candidates, role_candidates_body]
    rw [if_neg (by decide), if_neg (by decide), if_neg (by decide), if_neg (by decide),
      if_neg (by decide), if_neg (by decide), if_neg (by decide), if_neg (by decide),
      if_neg (by decide), if_neg (by decide), if_neg (by decide), if_neg (by decide),
      if_neg (by decide), if_neg (by decide), if_pos rfl]
  rw [hbranch, top_by, dps_pool_amended]
  apply rank_top_congr
  intro c _
  simp only [if_pos rfl]
  by_cases hc : require_charm ∧ c = "Enchanter"
  · simp only [if_pos hc, ite_true]
    omega
  · simp only [if_neg hc, ite_true]
    omega

theorem score_foldl_spec {ratings : Ratings} {era boxing_mode start : String}
    {require_charm hardcore_required : Bool} {comp template_slots : List String} :
    ∀ (l : List (String × String)) (acc : ScoreAcc),
      l.foldl (score_step ratings era boxing_mode start require_charm hardcore_required
        comp template_slots) acc =
      { bds := acc.bds ++ l.map (fun p =>
          ⟨p.1, p.2,
            slot_contribution ratings era boxing_mode require_charm comp template_slots p,
            (slot_value ratings era p.2 p.1 boxing_mode comp template_slots).2,
            start_condition_bonus start p.2⟩)
        slot_total := acc.slot_total + (l.map (slot_contribution ratings era boxing_mode
          require_charm comp template_slots)).sum
        start_bonus_total := acc.start_bonus_total
          + (l.map (fun p => start_condition_bonus start p.2)).sum
        charm_bonus_applied :=
          if require_charm ∧ (∃ p ∈ l, p.2 = "Enchanter") then 30
          else acc.charm_bonus_applied
        hardcore_warrior_bonus :=
          if hardcore_required ∧ (∃ p ∈ l, p.1 = "tank" ∧ p.2 = "Warrior") then 18
          else acc.hardcore_warrior_bonus } := by
  intro l
  induction l with
  | nil =>
    intro acc
    simp only [List.foldl_nil, List.map_nil, List.append_nil, List.sum_nil, Int.add_zero]
    cases acc
    simp
  | cons p rest ih =>
    intro acc
    rw [List.foldl_cons, ih]
    simp only [List.map_cons, List.sum_cons, ScoreAcc.mk.injEq]
    refine ⟨?_, ?_, ?_, ?_, ?_⟩
    · rw [score_step]
      simp only [slot_contribution, List.append_assoc, List.cons_append, List.nil_append]
    · rw [score_step]
      simp only [slot_contribution]
      omega
    · rw [score_step]
      simp only []
      omega
    · rw [score_step]
      simp only []
      by_cases hrest : require_charm ∧ (∃ q ∈ rest, q.2 = "Enchanter")
      · rw [if_pos hrest, if_pos ⟨hrest.1, hrest.2.elim (fun q hq =>
          ⟨q, List.mem_cons_of_mem _ hq.1, hq.2⟩)⟩]
      · rw [if_neg hrest]
        by_cases hp : require_charm ∧ p.2 = "Enchanter"
        · rw [if_pos hp, if_pos ⟨hp.1, p, List.mem_cons_self _ _, hp.2⟩]
        · rw [if_neg hp, if_neg ?_]
          rintro ⟨hrc, q, hq, hqe⟩
          rcases List.mem_cons.mp hq with rfl | hq2
          · exact hp ⟨hrc, hqe⟩
          · exact hrest ⟨hrc, q, hq2, hqe⟩
    · rw [score_step]
      simp only []
      by_cases hrest : hardcore_required ∧ (∃ q ∈ rest, q.1 = "tank" ∧ q.2 = "Warrior")
      · rw [if_pos hrest, if_pos ⟨hrest.1, hrest.2.elim (fun q hq =>
          ⟨q, List.mem_cons_of_mem _ hq.1, hq.2⟩)⟩]
      · rw [if_neg hrest]
        by_cases hp : hardcore_required ∧ p.1 = "tank" ∧ p.2 = "Warrior"
        · rw [if_pos ⟨hp.1, hp.2.1, hp.2.2⟩, if_pos ⟨hp.1, p, List.mem_cons_self _ _, hp.2⟩]
        · rw [if_neg ?_, if_neg ?_]
          · rintro ⟨hrc, q, hq, hqe⟩
            rcases List.mem_cons.mp hq with rfl | hq2
            · exact hp ⟨hrc, hqe⟩
            · exact hrest ⟨hrc, q, hq2, hqe⟩
          · rintro ⟨hrc, h1, h2⟩
            exact hp ⟨hrc, h1, h2⟩

theorem int_tdiv_hundred_eq_ratTrunc (S : Int) :
    Int.tdiv S 100 = ratTrunc ((S : ℚ) / 100) := by
  have h100 : ((100 : ℕ) : ℚ) = (100 : ℚ) := by norm_num
  rw [ratTrunc]
  by_cases hS : 0 ≤ S
  · have hq : ¬ ((S : ℚ) / 100 < 0) :=
      not_lt.mpr (div_nonneg (by exact_mod_cast hS) (by norm_num))
    rw [if_neg hq, ← h100, Rat.floor_intCast_div_natCast]
    exact Int.tdiv_eq_ediv hS (by norm_num)
  · push_neg at hS
    have hq : (S : ℚ) / 100 < 0 :=
      div_neg_of_neg_of_pos (by exact_mod_cast hS) (by norm_num)
    rw [if_pos hq]
    have hrw : (S : ℚ) / 100 = -(((-S : ℤ) : ℚ) / 100) := by push_cast; ring
    rw [hrw, Int.ceil_neg, ← h100, Rat.floor_intCast_div_natCast]
    have hcast : ((100 : ℕ) : ℤ) = (100 : ℤ) := by norm_num
    rw [hcast]
    have h2 : (-S).tdiv 100 = (-S) / 100 := Int.tdiv_eq_ediv (by omega) (by norm_num)
    rw [← h2, Int.neg_tdiv, neg_neg]

theorem score_comp_explain_total_eq (comp : List String) (ratings : Ratings)
    (era boxing_mode start : String) (require_charm : Bool) (template_slots : List String)
    (hardcore_required require_run_speed require_ports : Bool) :
    (score_comp_explain comp ratings era boxing_mode start require_charm template_slots
      hardcore_required require_run_speed require_ports).1
    = Int.tdiv (score_scaled_sum comp ratings era boxing_mode start require_charm
        template_slots hardcore_required require_run_speed require_ports) 100 := by
  rw [score_comp_explain]
  simp only [score_foldl_spec, List.nil_append, Int.zero_add]
  rw [score_scaled_sum, slot_values_sum, start_bonuses_sum, hardcore_warrior_value]
  simp only [List.any_eq_true, decide_eq_true_eq, Int.zero_add]

/-- C6 counterexample: for the 2-box comp `[Warrior, Cleric]` with
`tanking(Warrior) = 1` and no slow class, the real-valued sum is
`0.45 - 25 = -24.55`; its floor is `-25`, but the code's `int()` truncates
toward zero and returns `-24`. -/
theorem c6_counterexample :
    (score_comp_explain ["Warrior", "Cleric"] [("e", [("Warrior", [("tanking", 1)])])]
      "e" "assisted" "assisted" false ["tank", "healer"] false false false).1
    ≠ ⌊score_real_sum ["Warrior", "Cleric"] [("e", [("Warrior", [("tanking", 1)])])]
        "e" "assisted" "assisted" false ["tank", "healer"] false false false⌋ := by
  have h1 : (score_comp_explain ["Warrior", "Cleric"]
      [("e", [("Warrior", [("tanking", 1)])])]
      "e" "assisted" "assisted" false ["tank", "healer"] false false false).1 = -24 := by
    decide
  have h2 : score_scaled_sum ["Warrior", "Cleric"] [("e", [("Warrior", [("tanking", 1)])])]
      "e" "assisted" "assisted" false ["tank", "healer"] false false false = -2455 := by
    decide
  rw [h1, score_real_sum, h2]
  have h3 : ⌊(((-2455 : ℤ) : ℚ)) / 100⌋ = -25 := by
    have h100 : ((100 : ℕ) : ℚ) = (100 : ℚ) := by norm_num
    rw [← h100, Rat.floor_intCast_div_natCast]
    decide
  rw [h3]
  decide

/-- C6 (amended): for every comp and context the integer score returned by
`score_comp_explain` equals the truncation toward zero (not the floor) of the
real-valued sum of all per-slot values and whole-comp bonuses/penalties. -/
theorem c6_score_is_truncated_sum (comp : List String) (ratings : Ratings)
    (era boxing_mode start : String) (require_charm : Bool) (template_slots : List String)
    (hardcore_required require_run_speed require_ports : Bool) :
    (score_comp_explain comp ratings era boxing_mode start require_charm template_slots
      hardcore_required require_run_speed require_ports).1
    = ratTrunc (score_real_sum comp ratings era boxing_mode start require_charm
        template_slots hardcore_required require_run_speed require_ports) := by
  rw [score_real_sum, ← int_tdiv_hundred_eq_ratTrunc]
  exact score_comp_explain_total_eq comp ratings era boxing_mode start require_charm
    template_slots hardcore_required require_run_speed require_ports

/-- C10: the pair returned by `score_comp_explain` is internally consistent:
the returned integer score equals the explanation's `total` field, and
`slot_breakdowns` has exactly one entry, in template order, for each
(slot, class) pair of `zip(template_slots, comp)`. -/
theorem c10_explain_consistency (comp : List String) (ratings : Ratings)
    (era boxing_mode start : String) (require_charm : Bool) (template_slots : List String)
    (hardcore_required require_run_speed require_ports : Bool) :
    (score_comp_explain comp ratings era boxing_mode start require_charm template_slots
      hardcore_required require_run_speed require_ports).1
    = (score_comp_explain comp ratings era boxing_mode start require_charm template_slots
        hardcore_required require_run_speed require_ports).2.total
    ∧ (score_comp_explain comp ratings era boxing_mode start require_charm template_slots
        hardcore_required require_run_speed require_ports).2.slot_breakdowns.map
          (fun b => (b.slot, b.cls))
      = template_slots.zip comp := by
  constructor
  · rfl
  · rw [score_comp_explain]
    simp only [score_foldl_spec, List.nil_append]
    rw [List.map_map]
    have : ((fun b => (b.slot, b.cls)) ∘ (fun (p : String × String) =>
        (⟨p.1, p.2,
          slot_contribution ratings era boxing_mode require_charm comp template_slots p,
          (slot_value ratings era p.2 p.1 boxing_mode comp template_slots).2,
          start_condition_bonus start p.2⟩ : SlotBreakdown)))
        = fun p => p := by
      funext p
      rfl
    rw [this]
    exact List.map_id _

/-- C8: `charm_tank` returns exactly `[Enchanter]` when Enchanter is available
and `[]` otherwise; `kiter_swarm` likewise with Bard; and with empty
must-include, an empty slot pool propagates to an empty result list (the model
is total, so no exception is possible). -/
theorem c8_singleton_slots_and_empty_propagation :
    (∀ (available : List String) (ratings : Ratings) (era boxing_mode start : String)
      (require_charm : Bool),
      role_candidates available ratings era "charm_tank" boxing_mode start require_charm
        = if "Enchanter" ∈ available then ["Enchanter"] else [])
    ∧ (∀ (available : List String) (ratings : Ratings) (era boxing_mode start : String)
      (require_charm : Bool),
      role_candidates available ratings era "kiter_swarm" boxing_mode start require_charm
        = if "Bard" ∈ available then ["Bard"] else [])
    ∧ (∀ (ratings : Ratings) (era : String) (available template_slots : List String)
      (boxing_mode start : String) (exclude : List String)
      (rp rrs rc rph rk hardcore_required : Bool) (limit : Nat),
      (∃ pool ∈ final_slot_pools ratings era available template_slots boxing_mode start
        [] exclude rp rrs rc rph rk hardcore_required, pool = []) →
      generate_scored_recommendations ratings era available template_slots boxing_mode start
        [] exclude rp rrs rc rph rk hardcore_required limit = []) := by
  refine ⟨?_, ?_, ?_⟩
  · intro available ratings era boxing_mode start require_charm
    rw [role_candidates, role_candidates_body]
    rw [if_neg (by decide), if_neg (by decide), if_neg (by decide), if_neg (by decide),
      if_neg (by decide), if_pos rfl]
    by_cases h : "Enchanter" ∈ available
    · rw [if_pos h, if_neg (by simpa using h)]
    · rw [if_neg h, if_pos (by simpa using h)]
  · intro available ratings era boxing_mode start require_charm
    rw [role_candidates, role_candidates_body]
    rw [if_neg (by decide), if_neg (by decide), if_neg (by decide), if_neg (by decide),
      if_neg (by decide), if_neg (by decide), if_neg (by decide), if_neg (by decide),
      if_neg (by decide), if_pos rfl]
    by_cases h : "Bard" ∈ available
    · rw [if_pos h, if_neg (by simpa using h)]
    · rw [if_neg h, if_pos (by simpa using h)]
  · rintro ratings era available template_slots boxing_mode start exclude
      rp rrs rc rph rk hardcore_required limit ⟨pool, hpool, hnil⟩
    rw [generate_scored_recommendations, pools_product_eq_nil hpool hnil]
    simp [process_comps]

theorem c8_witness :
    generate_scored_recommendations [] "e" [] ["charm_tank"] "manual" "fresh" [] []
      false false false false false false 15 = [] :=
  c8_singleton_slots_and_empty_propagation.2.2 [] "e" [] ["charm_tank"] "manual" "fresh"
    [] false false false false false false 15 ⟨[], by decide, rfl⟩

theorem best_slot_index_not_excluded {cls : String} {ts : List String} {excl : List Nat}
    (hex : ∃ j, j < ts.length ∧ excl.contains j = false) :
    excl.contains (best_slot_index_for_must_include cls ts excl) = false := by
  simp only [best_slot_index_for_must_include]
  split
  · next i hfs =>
    obtain ⟨st, hst, hf⟩ := List.exists_of_findSome?_eq_some hfs
    rw [Option.map_eq_some'] at hf
    obtain ⟨p, hfind, hp1⟩ := hf
    have hp := List.find?_some hfind
    simp only [Bool.and_eq_true, Bool.not_eq_true'] at hp
    rw [← hp1]
    exact hp.2
  · next hfs =>
    split
    · next j hfind =>
      have hp := List.find?_some hfind
      simpa using hp
    · next hfind =>
      obtain ⟨j, hj, hcj⟩ := hex
      have hnone := List.find?_eq_none.mp hfind j (List.mem_range.mpr hj)
      simp at hnone
      exact absurd hnone (by simpa using hcj)

theorem inject_getElem_preserved {exclude available ts : List String} {excl : List Nat}
    {i : Nat} (hi : excl.contains i = true)
    (hex : ∃ j, j < ts.length ∧ excl.contains j = false) :
    ∀ (must : List String) (pools : List (List String)),
      (inject_must_include pools must exclude available ts excl)[i]? = pools[i]? := by
  intro must
  induction must with
  | nil => intro pools; rfl
  | cons cls rest ih =>
    intro pools
    rw [inject_must_include, List.foldl_cons, ← inject_must_include, ih]
    by_cases h1 : ¬ available.contains cls ∨ exclude.contains cls
    · rw [if_pos h1]
    rw [if_neg h1]
    by_cases h2 : pools.any fun pool => pool.contains cls
    · rw [if_pos h2]
    rw [if_neg h2]
    by_cases h3 : best_slot_index_for_must_include cls ts excl < pools.length
    · rw [if_pos h3]
      simp only []
      apply List.getElem?_set_ne
      intro heq
      have hne := @best_slot_index_not_excluded cls _ _ hex
      rw [heq, hi] at hne
      cases hne
    · rw [if_neg h3]

theorem inject_length {exclude available ts : List String} {excl : List Nat} :
    ∀ (must : List String) (pools : List (List String)),
      (inject_must_include pools must exclude available ts excl).length = pools.length := by
  intro must
  induction must with
  | nil => intro pools; rfl
  | cons cls rest ih =>
    intro pools
    rw [inject_must_include, List.foldl_cons, ← inject_must_include, ih]
    by_cases h1 : ¬ available.contains cls ∨ exclude.contains cls
    · rw [if_pos h1]
    rw [if_neg h1]
    by_cases h2 : pools.any fun pool => pool.contains cls
    · rw [if_pos h2]
    rw [if_neg h2]
    by_cases h3 : best_slot_index_for_must_include cls ts excl < pools.length
    · rw [if_pos h3]
      simp only []
      exact List.length_set pools _ _
    · rw [if_neg h3]

/-- C4 (amended): for box_size 6 and focus solo_raid (hardcore), with Cleric,
Shaman and Bard available, every returned comp has Cleric in the `healer` slot
(index 1), Shaman in the `slow` slot (index 2) and Bard in the `cc` slot
(index 3); hence any two returned comps can differ only in the `tank` slot
(index 0) and the `dps` slots (indices 4 and 5). -/
theorem c4_hardcore_pinned_slots (ratings : Ratings) (era : String)
    (available : List String) (boxing_mode start : String)
    (must_include exclude : List String) (rp rrs rc rph rk : Bool) (limit : Nat)
    (hC : "Cleric" ∈ available) (hS : "Shaman" ∈ available) (hB : "Bard" ∈ available) :
    ∀ r ∈ generate_scored_recommendations ratings era available
        (get_template 6 "solo_raid") boxing_mode start must_include exclude
        rp rrs rc rph rk true limit,
      r.2.1[1]? = some "Cleric" ∧ r.2.1[2]? = some "Shaman" ∧ r.2.1[3]? = some "Bard"
      ∧ ∀ r2 ∈ generate_scored_recommendations ratings era available
          (get_template 6 "solo_raid") boxing_mode start must_include exclude
          rp rrs rc rph rk true limit,
          ∀ i : Nat, i ≠ 0 → i ≠ 4 → i ≠ 5 → r.2.1[i]? = r2.2.1[i]? := by
  have hT : get_template 6 "solo_raid" = ["tank", "healer", "slow", "cc", "dps", "dps"] := by
    decide
  have hCc : available.contains "Cleric" = true := by simpa using hC
  have hSc : available.contains "Shaman" = true := by simpa using hS
  have hBc : available.contains "Bard" = true := by simpa using hB
  have hhc : hardcore_forced_slots ["tank", "healer", "slow", "cc", "dps", "dps"]
      available true = [(1, ["Cleric"]), (2, ["Shaman"]), (3, ["Bard"])] := by
    rw [hardcore_forced_slots, if_pos rfl, if_pos hCc, if_pos hSc, if_pos hBc]
    rfl
  have hbase : ∀ i : Nat, ∀ slot cls : String,
      (["tank", "healer", "slow", "cc", "dps", "dps"] : List String).enum[i]? = some (i, slot) →
      ((([(1, ["Cleric"]), (2, ["Shaman"]), (3, ["Bard"])] :
        List (Nat × List String)).lookup i) = some [cls]) →
      (base_slot_pools ratings era available ["tank", "healer", "slow", "cc", "dps", "dps"]
        boxing_mode start rp rrs rc rph rk true)[i]? = some [cls] := by
    intro i slot cls henum hlk
    rw [base_slot_pools]
    rw [List.getElem?_map, henum, Option.map_some', hhc, hlk]
  have hfinal : ∀ (i : Nat) (slot cls : String),
      (["tank", "healer", "slow", "cc", "dps", "dps"] : List String).enum[i]? = some (i, slot) →
      (([(1, ["Cleric"]), (2, ["Shaman"]), (3, ["Bard"])] :
        List (Nat × List String)).lookup i) = some [cls] →
      (([1, 2, 3] : List Nat).contains i) = true →
      (final_slot_pools ratings era available ["tank", "healer", "slow", "cc", "dps", "dps"]
        boxing_mode start must_include exclude rp rrs rc rph rk true)[i]? = some [cls] := by
    intro i slot cls henum hlk hmem
    rw [final_slot_pools]
    have hrw : (hardcore_forced_slots ["tank", "healer", "slow", "cc", "dps", "dps"]
        available true).map Prod.fst = [1, 2, 3] := by rw [hhc]; rfl
    rw [hrw]
    rw [inject_getElem_preserved hmem ⟨0, by decide, by decide⟩ must_include _]
    exact hbase i slot cls henum hlk
  have hplen : (final_slot_pools ratings era available
      ["tank", "healer", "slow", "cc", "dps", "dps"]
      boxing_mode start must_include exclude rp rrs rc rph rk true).length = 6 := by
    rw [final_slot_pools, inject_length, base_slot_pools]
    simp
  have hkey : ∀ r ∈ generate_scored_recommendations ratings era available
      (get_template 6 "solo_raid") boxing_mode start must_include exclude
      rp rrs rc rph rk true limit,
      r.2.1.length = 6 ∧ r.2.1[1]? = some "Cleric" ∧ r.2.1[2]? = some "Shaman"
        ∧ r.2.1[3]? = some "Bard" := by
    intro r hr
    rw [hT] at hr
    obtain ⟨hprod, _, _, _, _⟩ := mem_generate hr
    obtain ⟨hlen, hmem⟩ := mem_pools_product hprod
    have hclen : r.2.1.length = 6 := by rw [hlen, hplen]
    have hget : ∀ (i : Nat) (slot cls : String),
        (["tank", "healer", "slow", "cc", "dps", "dps"] :
          List String).enum[i]? = some (i, slot) →
        (([(1, ["Cleric"]), (2, ["Shaman"]), (3, ["Bard"])] :
          List (Nat × List String)).lookup i) = some [cls] →
        (([1, 2, 3] : List Nat).contains i) = true →
        i < 6 →
        r.2.1[i]? = some cls := by
      intro i slot cls henum hlk hmemi hi6
      cases hx : r.2.1[i]? with
      | none =>
        have hle := List.getElem?_eq_none_iff.mp hx
        omega
      | some x =>
        have hin := hmem i x [cls] hx (hfinal i slot cls henum hlk hmemi)
        simp only [List.mem_singleton] at hin
        rw [hin]
    exact ⟨hclen,
      hget 1 "healer" "Cleric" (by decide) (by decide) (by decide) (by omega),
      hget 2 "slow" "Shaman" (by decide) (by decide) (by decide) (by omega),
      hget 3 "cc" "Bard" (by decide) (by decide) (by decide) (by omega)⟩
  intro r hr
  obtain ⟨hrlen, hr1, hr2, hr3⟩ := hkey r hr
  refine ⟨hr1, hr2, hr3, ?_⟩
  intro r2 hr2m i h0 h4 h5
  obtain ⟨hrlen2, hs1, hs2, hs3⟩ := hkey r2 hr2m
  rcases Nat.lt_or_ge i 6 with h6 | h6
  · interval_cases i
    · exact absurd rfl h0
    · rw [hr1, hs1]
    · rw [hr2, hs2]
    · rw [hr3, hs3]
    · exact absurd rfl h4
    · exact absurd rfl h5
  · rw [List.getElem?_eq_none (by omega), List.getElem?_eq_none (by omega)]

def c4_cex_results : List (Int × List String × ScoreDetail) :=
  generate_scored_recommendations
    [("e", [("Warrior", [("tanking", 10)]), ("Paladin", [("tanking", 5)])])] "e"
    ["Warrior", "Paladin", "Cleric", "Shaman", "Bard"]
    (get_template 6 "solo_raid") "assisted" "assisted" [] []
    false false false false false true 15

/-- C4 counterexample: with two tank classes available, the result list
contains two comps that differ in the `tank` slot (index 0), which is not a
`dps` slot, falsifying "any two distinct returned comps differ only in their
dps slots". -/
theorem c4_counterexample :
    (["Warrior", "Cleric", "Shaman", "Bard", "Cleric", "Cleric"] : List String)
      ∈ c4_cex_results.map (fun r => r.2.1)
    ∧ (["Paladin", "Cleric", "Shaman", "Bard", "Cleric", "Cleric"] : List String)
      ∈ c4_cex_results.map (fun r => r.2.1)
    ∧ (["Warrior", "Cleric", "Shaman", "Bard", "Cleric", "Cleric"] : List String)[0]?
      ≠ (["Paladin", "Cleric", "Shaman", "Bard", "Cleric", "Cleric"] : List String)[0]?
    ∧ (get_template 6 "solo_raid")[0]? = some "tank" := by
  refine ⟨by decide, by decide, by decide, by decide⟩

theorem c4_witness :
    (first_result c4_cex_results).2.1[1]? = some "Cleric"
    ∧ (first_result c4_cex_results).2.1[2]? = some "Shaman"
    ∧ (first_result c4_cex_results).2.1[3]? = some "Bard"
    ∧ (first_result c4_cex_results).2.1[1]?
        = (first_result (c4_cex_results.drop 9)).2.1[1]? :=
  ⟨(c4_hardcore_pinned_slots
      [("e", [("Warrior", [("tanking", 10)]), ("Paladin", [("tanking", 5)])])] "e"
      ["Warrior", "Paladin", "Cleric", "Shaman", "Bard"] "assisted" "assisted" [] []
      false false false false false 15 (by decide) (by decide) (by decide)
      (first_result c4_cex_results) (by decide)).1,
   (c4_hardcore_pinned_slots
      [("e", [("Warrior", [("tanking", 10)]), ("Paladin", [("tanking", 5)])])] "e"
      ["Warrior", "Paladin", "Cleric", "Shaman", "Bard"] "assisted" "assisted" [] []
      false false false false false 15 (by decide) (by decide) (by decide)
      (first_result c4_cex_results) (by decide)).2.1,
   (c4_hardcore_pinned_slots
      [("e", [("Warrior", [("tanking", 10)]), ("Paladin", [("tanking", 5)])])] "e"
      ["Warrior", "Paladin", "Cleric", "Shaman", "Bard"] "assisted" "assisted" [] []
      false false false false false 15 (by decide) (by decide) (by decide)
      (first_result c4_cex_results) (by decide)).2.2.1,
   (c4_hardcore_pinned_slots
      [("e", [("Warrior", [("tanking", 10)]), ("Paladin", [("tanking", 5)])])] "e"
      ["Warrior", "Paladin", "Cleric", "Shaman", "Bard"] "assisted" "assisted" [] []
      false false false false false 15 (by decide) (by decide) (by decide)
      (first_result c4_cex_results) (by decide)).2.2.2
      (first_result (c4_cex_results.drop 9)) (by decide) 1 (by decide) (by decide)
      (by decide)⟩

end MultiboxPlanner
